import Mathlib

/-!
Verification of the perpetual-futures exchange core of the
`bitcoin-perp-dex` repository against its natural-language specification.

The Python source is shallowly embedded: Python `float` arithmetic on
prices, rates and ratios is modelled by exact rationals (`ℚ`), Python
`int` by `ℤ`, SQLite rows by Lean structures, and each table by a list of
rows inside a `Ledger` record.  Every operation of
`futures_engine.py`, `futures_ledger.py`, `funding_rate.py`,
`liquidation_engine.py`, `price_oracle.py` and the order endpoint of
`app.py` that the verified properties touch is translated function by
function; external I/O (the SQLite connection, the oracle HTTP fetch,
`time.time()`, Nostr publishing) becomes explicit arguments or state.
-/

attribute [local semireducible] Rat.mul Rat.inv Rat.add Rat.sub Rat.ofScientific

namespace PerpDex

/-- Python `int()` applied to a (nonnegative-denominator) rational:
truncation toward zero, `Int.tdiv` of numerator by denominator. -/
def pyInt (q : ℚ) : ℤ := Int.tdiv q.num (q.den : ℤ)

/-- Python `x or y` for a float `x`: `0.0` is falsy. -/
def pyOrQ (x y : ℚ) : ℚ := if x = 0 then y else x

/-- Python `x or y` where `x` is an optional float (`None` and `0.0` falsy). -/
def pyOrOpt (x : Option ℚ) (y : ℚ) : ℚ :=
  match x with
  | none => y
  | some v => if v = 0 then y else v

/-- Python `x or y` where both are optional floats (`None` and `0.0` falsy). -/
def pyOrOpt2 (x y : Option ℚ) : Option ℚ :=
  match x with
  | none => y
  | some v => if v = 0 then y else some v

/-- Modelled from the spec: `src/config.py` does not define the futures
constants that `futures_engine.py` and `liquidation_engine.py` read as
`config.MAINTENANCE_MARGIN_PCT` and `config.TAKER_FEE_PCT` (only the
bank/Lightning settings are present in the file).  They are therefore
carried in an explicit record threaded through the engine functions. -/
structure Config where
  MAINTENANCE_MARGIN_PCT : ℚ
  TAKER_FEE_PCT : ℚ
  deriving Repr, DecidableEq

/-- Modelled from the spec: concrete constants for the seed scenarios.
The spec fixes the maintenance margin at 0.05 (§4.3.5, S1, S4); it names
no taker-fee number, so an arbitrary positive value 0.0005 is used in
concrete test states (the verified statements quantify over the fee). -/
def specConfig : Config :=
  { MAINTENANCE_MARGIN_PCT := 1/20, TAKER_FEE_PCT := 1/2000 }

/-- `futures_engine.sats_to_usd` (src/futures_engine.py:44). -/
def sats_to_usd (sats : ℤ) (price_usd : ℚ) : ℚ :=
  ((sats : ℚ) / 100000000) * price_usd

/-- `futures_engine.usd_to_msats` (src/futures_engine.py:48):
`int((usd / price_usd) * 1e11)`. -/
def usd_to_msats (usd : ℚ) (price_usd : ℚ) : ℤ :=
  pyInt ((usd / price_usd) * 100000000000)

/-- `futures_engine.sats_to_msats` (src/futures_engine.py:52). -/
def sats_to_msats (sats : ℤ) : ℤ := sats * 1000

/-- `futures_engine.calc_liquidation_price` (src/futures_engine.py:56).
The Python default `maintenance_margin_pct=None` and the line
`mm = maintenance_margin_pct or config.MAINTENANCE_MARGIN_PCT` are kept:
both `None` and the falsy float `0.0` select the config constant. -/
def calc_liquidation_price (cfg : Config) (side : String) (entry_price_usd : ℚ)
    (leverage : ℤ) (maintenance_margin_pct : Option ℚ) : ℚ :=
  let mm := match maintenance_margin_pct with
    | none => cfg.MAINTENANCE_MARGIN_PCT
    | some m => if m = 0 then cfg.MAINTENANCE_MARGIN_PCT else m
  if side = "long" then entry_price_usd * (1 - (1 / (leverage : ℚ)) + mm)
  else entry_price_usd * (1 + (1 / (leverage : ℚ)) - mm)

/-- `futures_engine.calc_unrealized_pnl_msats` (src/futures_engine.py:73). -/
def calc_unrealized_pnl_msats (side : String) (size_sats : ℤ)
    (entry_price_usd mark_price_usd : ℚ) : ℤ :=
  let pct := if side = "long" then (mark_price_usd - entry_price_usd) / entry_price_usd
    else (entry_price_usd - mark_price_usd) / entry_price_usd
  pyInt (pct * (sats_to_msats size_sats : ℚ))

/-- `futures_engine.calc_margin_ratio` (src/futures_engine.py:87). -/
def calc_margin_ratio (collateral_msats unrealized_pnl_msats size_sats : ℤ)
    (mark_price_usd : ℚ) : ℚ :=
  let notional_msats := usd_to_msats (sats_to_usd size_sats mark_price_usd) mark_price_usd
  if notional_msats ≤ 0 then 0
  else ((collateral_msats + unrealized_pnl_msats : ℤ) : ℚ) / (notional_msats : ℚ)

/-- `futures_engine.required_collateral_msats` (src/futures_engine.py:126).
`margin = notional_msats // leverage` is Python floor division;
`fee = int(notional_msats * fp)` truncates toward zero.  The Python
default `fee_pct=None` and `fp = fee_pct or config.TAKER_FEE_PCT`
are kept (falsy `0.0` also selects the config constant). -/
def required_collateral_msats (cfg : Config) (size_sats leverage : ℤ)
    (price_usd : ℚ) (fee_pct : Option ℚ) : ℤ :=
  let fp := pyOrOpt fee_pct cfg.TAKER_FEE_PCT
  let notional_msats := usd_to_msats (sats_to_usd size_sats price_usd) price_usd
  let margin := Int.fdiv notional_msats leverage
  let fee := pyInt ((notional_msats : ℚ) * fp)
  margin + fee

/-- A row of the `orders` table (src/futures_ledger.py:48).  UUID ids are
modelled by naturals drawn from the ledger's `next_id` counter. -/
structure Order where
  id : ℕ
  pubkey : String
  market : String
  side : String
  order_type : String
  size_sats : ℤ
  price_usd : Option ℚ
  leverage : ℤ
  status : String
  filled_size_sats : ℤ
  nostr_event_id : Option String
  created_at : ℤ
  deriving Repr, DecidableEq

/-- A row of the `positions` table (src/futures_ledger.py:67). -/
structure Position where
  id : ℕ
  pubkey : String
  market : String
  side : String
  size_sats : ℤ
  entry_price_usd : ℚ
  collateral_msats : ℤ
  leverage : ℤ
  liquidation_price_usd : ℚ
  funding_cost_msats : ℤ
  created_at : ℤ
  deriving Repr, DecidableEq

/-- A row of the `trades` table (src/futures_ledger.py:85). -/
structure Trade where
  id : ℕ
  market : String
  buyer_pubkey : String
  seller_pubkey : String
  size_sats : ℤ
  price_usd : ℚ
  buy_order_id : ℕ
  sell_order_id : ℕ
  deriving Repr, DecidableEq

/-- A row of the `funding_rates` table (src/futures_ledger.py:100). -/
structure FundingRate where
  market : String
  rate : ℚ
  mark_price_usd : ℚ
  index_price_usd : ℚ
  deriving Repr, DecidableEq

/-- One entry of the `futures_engine.MARKETS` dict (src/futures_engine.py:26).
The numeric fields come from the absent `config.py` constants and are
therefore data of the model rather than global constants. -/
structure Market where
  symbol : String
  max_leverage : ℤ
  initial_margin_pct : ℚ
  maintenance_margin_pct : ℚ
  maker_fee_pct : ℚ
  taker_fee_pct : ℚ
  deriving Repr, DecidableEq

/-- The persistent futures state of `futures_ledger.py`: the
`futures_accounts`, `orders`, `positions`, `trades`, `funding_rates` and
`insurance_fund` tables, plus a fresh-id counter standing for `uuid4()`
and the wall clock `int(time.time())`. -/
structure Ledger where
  accounts : List (String × ℤ)
  orders : List Order
  positions : List Position
  trades : List Trade
  funding_rates : List FundingRate
  insurance_fund : ℤ
  next_id : ℕ
  now : ℤ
  deriving Repr, DecidableEq

/-- `futures_ledger.get_collateral_msats` (src/futures_ledger.py:156):
`row["collateral_msats"] if row else 0`. -/
def get_collateral_msats (st : Ledger) (pubkey : String) : ℤ :=
  (st.accounts.lookup pubkey).getD 0

/-- `futures_ledger.credit_collateral` (src/futures_ledger.py:163):
`get_or_create_futures_account` then `UPDATE ... collateral_msats + ?`. -/
def credit_collateral (st : Ledger) (pubkey : String) (amount_msats : ℤ) : Ledger :=
  match st.accounts.lookup pubkey with
  | none => { st with accounts := st.accounts ++ [(pubkey, amount_msats)] }
  | some _ =>
      { st with accounts :=
          st.accounts.map (fun e => if e.1 = pubkey then (e.1, e.2 + amount_msats) else e) }

/-- `futures_ledger.debit_collateral` (src/futures_ledger.py:175): returns
`None` (no state change) when the account is absent or underfunded. -/
def debit_collateral (st : Ledger) (pubkey : String) (amount_msats : ℤ) : Option Ledger :=
  match st.accounts.lookup pubkey with
  | none => none
  | some bal =>
      if bal < amount_msats then none
      else
        some { st with
          accounts := st.accounts.map
            (fun e => if e.1 = pubkey then (e.1, e.2 - amount_msats) else e) }

/-- `futures_ledger.create_order` (src/futures_ledger.py:211): INSERT with
status `open`, `filled_size_sats = 0`, fresh id, both timestamps `now`. -/
def create_order (st : Ledger) (pubkey market side order_type : String)
    (size_sats leverage : ℤ) (price_usd : Option ℚ) (nostr_event_id : Option String) :
    Order × Ledger :=
  let o : Order :=
    { id := st.next_id, pubkey := pubkey, market := market, side := side,
      order_type := order_type, size_sats := size_sats, price_usd := price_usd,
      leverage := leverage, status := "open", filled_size_sats := 0,
      nostr_event_id := nostr_event_id, created_at := st.now }
  (o, { st with orders := st.orders ++ [o], next_id := st.next_id + 1 })

/-- `futures_ledger.get_order` (src/futures_ledger.py:235). -/
def get_order (st : Ledger) (order_id : ℕ) : Option Order :=
  st.orders.find? (fun o => o.id = order_id)

/-- The row update performed by `futures_ledger.update_order_status`:
status always set, `filled_size_sats` only when the argument is present. -/
def setOrderStatus (o : Order) (status : String) (filled_size_sats : Option ℤ) : Order :=
  { o with status := status,
           filled_size_sats := filled_size_sats.getD o.filled_size_sats }

/-- `futures_ledger.update_order_status` (src/futures_ledger.py:272). -/
def update_order_status (st : Ledger) (order_id : ℕ) (status : String)
    (filled_size_sats : Option ℤ) : Ledger :=
  { st with orders :=
      st.orders.map (fun o => if o.id = order_id then setOrderStatus o status filled_size_sats else o) }

/-- `futures_ledger.get_open_orders_for_market` (src/futures_ledger.py:242)
with a side filter: `WHERE market = ? AND side = ? AND status = 'open'
ORDER BY price_usd, created_at` (SQLite sorts NULL prices first).  Sorting
is modelled by the stable `List.insertionSort`; any two stable sorts under
the same total preorder produce the same list. -/
def sqliteOrderLe (a b : Order) : Bool :=
  match a.price_usd, b.price_usd with
  | none, _ => true
  | some _, none => false
  | some p, some q => p < q || (p = q && a.created_at ≤ b.created_at)

def get_open_orders_for_market (st : Ledger) (market side : String) : List Order :=
  (st.orders.filter
    (fun o => o.market = market && o.side = side && o.status = "open")).insertionSort
      (fun a b => sqliteOrderLe a b = true)

/-- `futures_ledger.create_position` (src/futures_ledger.py:292). -/
def create_position (st : Ledger) (pubkey market side : String) (size_sats : ℤ)
    (entry_price_usd : ℚ) (collateral_msats leverage : ℤ)
    (liquidation_price_usd : ℚ) : Ledger :=
  let p : Position :=
    { id := st.next_id, pubkey := pubkey, market := market, side := side,
      size_sats := size_sats, entry_price_usd := entry_price_usd,
      collateral_msats := collateral_msats, leverage := leverage,
      liquidation_price_usd := liquidation_price_usd, funding_cost_msats := 0,
      created_at := st.now }
  { st with positions := st.positions ++ [p], next_id := st.next_id + 1 }

/-- `futures_ledger.get_all_open_positions` (src/futures_ledger.py:332)
restricted to one market. -/
def get_all_open_positions (st : Ledger) (market : String) : List Position :=
  st.positions.filter (fun p => p.market = market)

/-- `futures_ledger.close_position` (src/futures_ledger.py:341):
`DELETE FROM positions WHERE id = ?`. -/
def close_position (st : Ledger) (pos_id : ℕ) : Ledger :=
  { st with positions := st.positions.filter (fun p => ¬ p.id = pos_id) }

/-- `futures_ledger.update_position_funding` (src/futures_ledger.py:347):
`funding_cost_msats += Δ`, `collateral_msats` set absolutely. -/
def update_position_funding (st : Ledger) (pos_id : ℕ)
    (funding_cost_delta_msats new_collateral_msats : ℤ) : Ledger :=
  { st with positions := st.positions.map (fun p =>
      if p.id = pos_id then
        { p with funding_cost_msats := p.funding_cost_msats + funding_cost_delta_msats,
                 collateral_msats := new_collateral_msats }
      else p) }

/-- `futures_ledger.record_trade` (src/futures_ledger.py:372). -/
def record_trade (st : Ledger) (market buyer_pubkey seller_pubkey : String)
    (size_sats : ℤ) (price_usd : ℚ) (buy_order_id sell_order_id : ℕ) : Ledger :=
  let t : Trade :=
    { id := st.next_id, market := market, buyer_pubkey := buyer_pubkey,
      seller_pubkey := seller_pubkey, size_sats := size_sats, price_usd := price_usd,
      buy_order_id := buy_order_id, sell_order_id := sell_order_id }
  { st with trades := st.trades ++ [t], next_id := st.next_id + 1 }

/-- `futures_ledger.record_funding_rate` (src/futures_ledger.py:449). -/
def record_funding_rate (st : Ledger) (market : String)
    (rate mark_price_usd index_price_usd : ℚ) : Ledger :=
  { st with funding_rates := st.funding_rates ++
      [{ market := market, rate := rate, mark_price_usd := mark_price_usd,
         index_price_usd := index_price_usd }] }

/-- `futures_ledger.credit_insurance_fund` (src/futures_ledger.py:495). -/
def credit_insurance_fund (st : Ledger) (amount_msats : ℤ) : Ledger :=
  { st with insurance_fund := st.insurance_fund + amount_msats }

/-- `futures_ledger.debit_insurance_fund` (src/futures_ledger.py:506):
`new_bal = max(0, bal - amount)` — saturates at zero. -/
def debit_insurance_fund (st : Ledger) (amount_msats : ℤ) : Ledger :=
  { st with insurance_fund := max 0 (st.insurance_fund - amount_msats) }

/-- One element of the fill list built by `futures_engine._match_order`. -/
structure Fill where
  size_sats : ℤ
  price_usd : ℚ
  deriving Repr, DecidableEq

/-- The per-party loop body of `futures_engine._execute_fill`
(src/futures_engine.py:331): liquidation price at the fill price,
pro-rated share of the reserved collateral, one new position. -/
def fill_position (cfg : Config) (markets : List (String × Market)) (market : String)
    (fill_size_sats : ℤ) (fill_price_usd : ℚ) (is_taker : Bool) (order : Order)
    (st : Ledger) : Ledger :=
  let liq_price := calc_liquidation_price cfg order.side fill_price_usd order.leverage none
  let ref_price := pyOrOpt order.price_usd fill_price_usd
  let fee_pct := match markets.lookup market with
    | some m => if is_taker then m.taker_fee_pct else m.maker_fee_pct
    | none => cfg.TAKER_FEE_PCT
  let collateral_reserved :=
    required_collateral_msats cfg order.size_sats order.leverage ref_price (some fee_pct)
  let fill_collateral :=
    pyInt ((collateral_reserved : ℚ) * ((fill_size_sats : ℚ) / (order.size_sats : ℚ)))
  create_position st order.pubkey market order.side fill_size_sats fill_price_usd
    fill_collateral order.leverage liq_price

/-- `futures_engine._execute_fill` (src/futures_engine.py:314): creates the
taker position then the maker position, updates the maker order status and
records the trade (event publishing is fire-and-forget and elided). -/
def execute_fill (cfg : Config) (markets : List (String × Market)) (st : Ledger)
    (taker_order maker_order : Order) (fill_size_sats : ℤ) (fill_price_usd : ℚ) : Ledger :=
  let market := taker_order.market
  let st1 := fill_position cfg markets market fill_size_sats fill_price_usd true taker_order st
  let st2 := fill_position cfg markets market fill_size_sats fill_price_usd false maker_order st1
  let new_filled := maker_order.filled_size_sats + fill_size_sats
  let st3 :=
    if maker_order.size_sats ≤ new_filled then
      update_order_status st2 maker_order.id "filled" (some new_filled)
    else
      update_order_status st2 maker_order.id "partially_filled" (some new_filled)
  let buyer := if taker_order.side = "long" then taker_order else maker_order
  let seller := if taker_order.side = "short" then taker_order else maker_order
  record_trade st3 market buyer.pubkey seller.pubkey fill_size_sats fill_price_usd
    buyer.id seller.id

/-- The `sorted` key `(o.price_usd, o.created_at)` used for a long taker in
`futures_engine._match_order` (src/futures_engine.py:259). -/
def longTakerLe (a b : Order) : Bool :=
  a.price_usd.getD 0 < b.price_usd.getD 0 ||
    (a.price_usd.getD 0 = b.price_usd.getD 0 && a.created_at ≤ b.created_at)

/-- The `sorted` key `(-o.price_usd, o.created_at)` used for a short taker
in `futures_engine._match_order` (src/futures_engine.py:265). -/
def shortTakerLe (a b : Order) : Bool :=
  b.price_usd.getD 0 < a.price_usd.getD 0 ||
    (a.price_usd.getD 0 = b.price_usd.getD 0 && a.created_at ≤ b.created_at)

/-- The candidate list of `futures_engine._match_order`
(src/futures_engine.py:252): opposite-side open orders, limit only,
price-time sorted (ascending prices for a long taker, descending for a
short taker).  Python `sorted` is stable and is modelled by the stable
`List.insertionSort`. -/
def match_candidates (st : Ledger) (taker_order : Order) : List Order :=
  let maker_side := if taker_order.side = "long" then "short" else "long"
  let resting := get_open_orders_for_market st taker_order.market maker_side
  if taker_order.side = "long" then
    (resting.filter (fun o => o.order_type = "limit")).insertionSort
      (fun a b => longTakerLe a b = true)
  else
    (resting.filter (fun o => o.order_type = "limit")).insertionSort
      (fun a b => shortTakerLe a b = true)

/-- The `for maker in resting` loop of `futures_engine._match_order`
(src/futures_engine.py:273): break on exhausted taker or price gate,
skip empty makers, otherwise execute the fill. -/
def match_loop (cfg : Config) (markets : List (String × Market)) (taker_order : Order)
    (taker_price : ℚ) : List Order → ℤ → Ledger → List Fill → ℤ × Ledger × List Fill
  | [], remaining, st, fills => (remaining, st, fills)
  | maker :: rest, remaining, st, fills =>
    if remaining ≤ 0 then (remaining, st, fills)
    else
      let maker_price := maker.price_usd.getD 0
      if taker_order.side = "long" ∧ taker_order.order_type = "limit" ∧
          taker_price < maker_price then
        (remaining, st, fills)
      else if taker_order.side = "short" ∧ taker_order.order_type = "limit" ∧
          maker_price < taker_price then
        (remaining, st, fills)
      else
        let fill_size := min remaining (maker.size_sats - maker.filled_size_sats)
        if fill_size ≤ 0 then
          match_loop cfg markets taker_order taker_price rest remaining st fills
        else
          let st1 := execute_fill cfg markets st taker_order maker fill_size maker_price
          match_loop cfg markets taker_order taker_price rest (remaining - fill_size)
            st1 (fills ++ [{ size_sats := fill_size, price_usd := maker_price }])

/-- `futures_engine._match_order` (src/futures_engine.py:241).  Besides the
fill list and final state it returns the final value of the mutated
`taker_order["filled_size_sats"]` dict entry, which `place_order` hands
back to the caller. -/
def match_order (cfg : Config) (markets : List (String × Market)) (st : Ledger)
    (taker_order : Order) (ref_price : ℚ) : List Fill × ℤ × Ledger :=
  let candidates := match_candidates st taker_order
  let taker_remaining := taker_order.size_sats - taker_order.filled_size_sats
  let taker_price := pyOrOpt taker_order.price_usd ref_price
  let r := match_loop cfg markets taker_order taker_price candidates taker_remaining st []
  let remaining := r.1
  let st1 := r.2.1
  let total_filled := taker_order.size_sats - remaining
  let st2 :=
    if taker_order.size_sats ≤ total_filled then
      update_order_status st1 taker_order.id "filled" (some total_filled)
    else if 0 < total_filled then
      update_order_status st1 taker_order.id "partially_filled" (some total_filled)
    else st1
  (r.2.2, taker_order.filled_size_sats + (taker_remaining - remaining), st2)

/-- The value `price_usd is None or price_usd <= 0` used by the limit-price
check in `futures_engine.place_order` (src/futures_engine.py:172). -/
def limitPriceInvalid : Option ℚ → Bool
  | none => true
  | some p => decide (p ≤ 0)

/-- `futures_engine.place_order` (src/futures_engine.py:147).  The oracle
read `get_mark_price(market)` is passed in as `mark_price`; the `MARKETS`
dict (whose numbers come from the absent config constants) is the explicit
`markets` table.  The f-string interpolations of the leverage bound and the
collateral amounts in the error messages are elided. -/
def place_order (cfg : Config) (markets : List (String × Market)) (st : Ledger)
    (pubkey market side order_type : String) (size_sats leverage : ℤ)
    (price_usd : Option ℚ) (nostr_event_id : Option String) (mark_price : Option ℚ) :
    (Option Order × Option String) × Ledger :=
  match markets.lookup market with
  | none => ((none, some ("Unknown market: " ++ market)), st)
  | some mkt =>
    if ¬ (side = "long" ∨ side = "short") then
      ((none, some "side must be long or short"), st)
    else if ¬ (order_type = "limit" ∨ order_type = "market") then
      ((none, some "order_type must be limit or market"), st)
    else if size_sats ≤ 0 then
      ((none, some "size_sats must be positive"), st)
    else if leverage < 1 ∨ mkt.max_leverage < leverage then
      ((none, some "leverage out of range"), st)
    else if order_type = "limit" ∧ limitPriceInvalid price_usd then
      ((none, some "limit order requires price_usd > 0"), st)
    else
      match pyOrOpt2 price_usd mark_price with
      | none => ((none, some "Cannot determine price — oracle unavailable"), st)
      | some rp =>
        if rp = 0 then ((none, some "Cannot determine price — oracle unavailable"), st)
        else
          let needed := required_collateral_msats cfg size_sats leverage rp (some mkt.taker_fee_pct)
          let collateral := get_collateral_msats st pubkey
          if collateral < needed then
            ((none, some "Insufficient collateral"), st)
          else
            match debit_collateral st pubkey needed with
            | none => ((none, some "Failed to reserve collateral"), st)
            | some st1 =>
              let co := create_order st1 pubkey market side order_type size_sats leverage
                price_usd nostr_event_id
              let mr := match_order cfg markets co.2 co.1 rp
              ((some { co.1 with filled_size_sats := mr.2.1 }, none), mr.2.2)

/-- `futures_engine.cancel_order` (src/futures_engine.py:210).  The oracle
read `get_mark_price(order["market"]) or 1` is passed in as `mark_price`. -/
def cancel_order (cfg : Config) (markets : List (String × Market)) (st : Ledger)
    (pubkey : String) (order_id : ℕ) (mark_price : Option ℚ) :
    (Bool × Option String) × Ledger :=
  match get_order st order_id with
  | none => ((false, some "Order not found"), st)
  | some order =>
    if ¬ order.pubkey = pubkey then ((false, some "Not your order"), st)
    else if ¬ order.status = "open" then
      ((false, some ("Order is " ++ order.status ++ ", cannot cancel")), st)
    else
      let mark := pyOrOpt mark_price 1
      let remaining_sats := order.size_sats - order.filled_size_sats
      let fee := match markets.lookup order.market with
        | some m => m.taker_fee_pct
        | none => cfg.TAKER_FEE_PCT
      let refund := required_collateral_msats cfg remaining_sats order.leverage
        (pyOrOpt order.price_usd mark) (some fee)
      let st1 := update_order_status st order_id "cancelled" none
      let st2 := credit_collateral st1 pubkey refund
      ((true, none), st2)

/-- `futures_ledger.get_position` (src/futures_ledger.py:316). -/
def get_position (st : Ledger) (pos_id : ℕ) : Option Position :=
  st.positions.find? (fun p => p.id = pos_id)

/-- The module cache of `price_oracle.py` (src/price_oracle.py:19):
`_cache = {"price": None, "ts": 0}`. -/
structure OracleCache where
  price : Option ℚ
  ts : ℚ
  deriving Repr, DecidableEq

/-- `price_oracle._CACHE_TTL` (src/price_oracle.py:18). -/
def CACHE_TTL : ℚ := 30

/-- `price_oracle.get_index_price` (src/price_oracle.py:42).  The Kraken
HTTP fetch `_fetch_kraken_price()` is passed in as `fetch` (`none` models
a failed fetch); `time.time()` is passed in as `now`.  Returns the price
answer and the updated cache. -/
def get_index_price (now : ℚ) (fetch : Option ℚ) (c : OracleCache) (market : String) :
    Option ℚ × OracleCache :=
  if ¬ market = "BTC-USD-PERP" then (none, c)
  else if c.price.isSome ∧ now - c.ts < CACHE_TTL then (c.price, c)
  else
    match fetch with
    | some price =>
        if ¬ price = 0 then (some price, { price := some price, ts := now })
        else (c.price, c)
    | none => (c.price, c)

/-- `funding_rate.FUNDING_FACTOR` (src/funding_rate.py:21). -/
def FUNDING_FACTOR : ℚ := 3/10000

/-- `funding_rate.MAX_RATE` (src/funding_rate.py:22). -/
def MAX_RATE : ℚ := 75/10000

/-- `funding_rate.compute_funding_rate` (src/funding_rate.py:25). -/
def compute_funding_rate (mark_price index_price : ℚ) : ℚ :=
  if index_price ≤ 0 then 0
  else
    let premium := (mark_price - index_price) / index_price
    let rate := premium * FUNDING_FACTOR
    max (-MAX_RATE) (min MAX_RATE rate)

/-- The per-position body of the loop in
`funding_rate.apply_funding_for_market` (src/funding_rate.py:55):
`payment = int(abs(rate) * notional_msats)`; a positive rate debits longs
and credits shorts, a negative rate debits shorts and credits longs; a
debit clamps the collateral at zero. -/
def funding_step (rate mark : ℚ) (st : Ledger) (pos : Position) : Ledger :=
  let notional_msats := usd_to_msats (sats_to_usd pos.size_sats mark) mark
  let payment_msats := pyInt (|rate| * (notional_msats : ℚ))
  if payment_msats = 0 then st
  else if 0 < rate then
    if pos.side = "long" then
      update_position_funding st pos.id payment_msats
        (max 0 (pos.collateral_msats - payment_msats))
    else
      update_position_funding st pos.id (-payment_msats)
        (pos.collateral_msats + payment_msats)
  else
    if pos.side = "short" then
      update_position_funding st pos.id payment_msats
        (max 0 (pos.collateral_msats - payment_msats))
    else
      update_position_funding st pos.id (-payment_msats)
        (pos.collateral_msats + payment_msats)

/-- `funding_rate.apply_funding_for_market` (src/funding_rate.py:37).  The
oracle answers are passed in; `None` or a falsy price skips the market.
Event publishing and the returned summary dict are elided. -/
def apply_funding_for_market (st : Ledger) (market : String)
    (mark_price index_price : Option ℚ) : Ledger :=
  match mark_price, index_price with
  | some mark, some index =>
      if mark = 0 ∨ index = 0 then st
      else
        let rate := compute_funding_rate mark index
        let positions := get_all_open_positions st market
        let st1 := positions.foldl (funding_step rate mark) st
        record_funding_rate st1 market rate mark index
  | _, _ => st

/-- `liquidation_engine.LIQUIDATION_FEE_PCT` (src/liquidation_engine.py:26). -/
def LIQUIDATION_FEE_PCT : ℚ := 5/1000

/-- `liquidation_engine.check_and_liquidate_position`
(src/liquidation_engine.py:29).  The oracle read is passed in as
`mark_price`.  Returns whether the position was liquidated and the new
ledger state. -/
def check_and_liquidate_position (cfg : Config) (st : Ledger) (pos : Position)
    (mark_price : Option ℚ) : Bool × Ledger :=
  match mark_price with
  | none => (false, st)
  | some mark =>
    if mark = 0 then (false, st)
    else
      let pnl := calc_unrealized_pnl_msats pos.side pos.size_sats pos.entry_price_usd mark
      let mr := calc_margin_ratio pos.collateral_msats pnl pos.size_sats mark
      if cfg.MAINTENANCE_MARGIN_PCT ≤ mr then (false, st)
      else
        let equity := pos.collateral_msats + pnl
        let notional_msats := usd_to_msats (sats_to_usd pos.size_sats mark) mark
        let liq_fee := pyInt ((notional_msats : ℚ) * LIQUIDATION_FEE_PCT)
        let sr :=
          if liq_fee ≤ equity then (equity - liq_fee, credit_insurance_fund st liq_fee)
          else if 0 < equity then ((0 : ℤ), credit_insurance_fund st equity)
          else ((0 : ℤ), debit_insurance_fund st (|equity| + liq_fee))
        let st2 := close_position sr.2 pos.id
        let st3 := if 0 < sr.1 then credit_collateral st2 pos.pubkey sr.1 else st2
        (true, st3)

/-- The fields of a Nostr kind-30051 order event at the
`POST /api/futures/order` endpoint, after JSON decoding of its `content`
(src/app.py:812); the transport codec is elided and the decoded
parameters carried directly. -/
structure OrderEvent where
  id : String
  pubkey : String
  kind : ℤ
  market : String
  side : String
  order_type : String
  size_sats : ℤ
  leverage : ℤ
  price_usd : Option ℚ
  deriving Repr, DecidableEq

/-- In-process server state: the futures ledger plus the module-level
`_processed_transfer_events` set of `app.py` (src/app.py:356), which is
consulted only by the `/api/transfer` endpoint — not by the futures
order endpoint. -/
structure AppState where
  ledger : Ledger
  processed_transfer_events : List String
  deriving Repr, DecidableEq

/-- The `POST /api/futures/order` handler `app.futures_place_order`
(src/app.py:791): verify the signature (outcome passed in as
`sig_valid`), check the kind, decode the parameters, call `place_order`
with the event id as `nostr_event_id`; 201 with the order on success,
400 with the error message otherwise.  The handler performs no
duplicate-event-id check. -/
def futures_place_order (cfg : Config) (markets : List (String × Market))
    (ev : OrderEvent) (sig_valid : Bool) (mark_price : Option ℚ) (app : AppState) :
    (Option Order × Option String × ℤ) × AppState :=
  if ¬ sig_valid then ((none, some "Invalid Nostr event signature", 401), app)
  else if ¬ ev.kind = 30051 then ((none, some "Expected Kind 30051", 400), app)
  else
    let r := place_order cfg markets app.ledger ev.pubkey ev.market ev.side ev.order_type
      ev.size_sats ev.leverage ev.price_usd (some ev.id) mark_price
    match r.1.2 with
    | some err => ((none, some err, 400), { app with ledger := r.2 })
    | none => ((r.1.1, none, 201), { app with ledger := r.2 })

/-- Modelled from the spec: one concrete market entry for the seed
scenarios.  `max_leverage` 10 admits the leverage-10 position of S4, the
margin percentages follow §4.3.5; the fee percentages are arbitrary
positive values (the source config omits them and the verified statements
quantify over the market table). -/
def specMarket : Market :=
  { symbol := "BTC-USD-PERP", max_leverage := 10, initial_margin_pct := 1/10,
    maintenance_margin_pct := 1/20, maker_fee_pct := 1/5000, taker_fee_pct := 1/2000 }

/-- The `futures_engine.MARKETS` table for concrete scenarios. -/
def specMarkets : List (String × Market) := [("BTC-USD-PERP", specMarket)]

/-- The row-level effect of one funding pass on the position it targets
(the per-position branch of `apply_funding_for_market`,
src/funding_rate.py:61). -/
def funding_step_row (rate mark : ℚ) (pos : Position) : Position :=
  let notional_msats := usd_to_msats (sats_to_usd pos.size_sats mark) mark
  let payment_msats := pyInt (|rate| * (notional_msats : ℚ))
  if payment_msats = 0 then pos
  else if 0 < rate then
    if pos.side = "long" then
      { pos with funding_cost_msats := pos.funding_cost_msats + payment_msats,
                 collateral_msats := max 0 (pos.collateral_msats - payment_msats) }
    else
      { pos with funding_cost_msats := pos.funding_cost_msats - payment_msats,
                 collateral_msats := pos.collateral_msats + payment_msats }
  else
    if pos.side = "short" then
      { pos with funding_cost_msats := pos.funding_cost_msats + payment_msats,
                 collateral_msats := max 0 (pos.collateral_msats - payment_msats) }
    else
      { pos with funding_cost_msats := pos.funding_cost_msats - payment_msats,
                 collateral_msats := pos.collateral_msats + payment_msats }

/-- Scenario S3 of the spec: a long position of 100,000,000 sats. -/
def s3Long : Position :=
  { id := 1, pubkey := "alice-long", market := "BTC-USD-PERP", side := "long",
    size_sats := 100000000, entry_price_usd := 50500, collateral_msats := 20000000000,
    leverage := 5, liquidation_price_usd := 42500, funding_cost_msats := 0,
    created_at := 0 }

/-- Scenario S3 of the spec: a short position of 100,000,000 sats. -/
def s3Short : Position :=
  { id := 2, pubkey := "bob-short", market := "BTC-USD-PERP", side := "short",
    size_sats := 100000000, entry_price_usd := 50500, collateral_msats := 20000000000,
    leverage := 5, liquidation_price_usd := 57500, funding_cost_msats := 0,
    created_at := 0 }

/-- Scenario S3 of the spec: ledger holding the two positions. -/
def s3Ledger : Ledger :=
  { accounts := [], orders := [], positions := [s3Long, s3Short], trades := [],
    funding_rates := [], insurance_fund := 0, next_id := 3, now := 0 }

/-- An empty ledger for concrete scenarios. -/
def emptyLedger : Ledger :=
  { accounts := [], orders := [], positions := [], trades := [], funding_rates := [],
    insurance_fund := 0, next_id := 0, now := 0 }

/-- A resting bid of scenario S2: `price` at logical time `t`. -/
def s2Bid (oid : ℕ) (price : ℚ) (t : ℤ) : Order :=
  { id := oid, pubkey := "bidder" ++ toString oid, market := "BTC-USD-PERP",
    side := "long", order_type := "limit", size_sats := 30000, price_usd := some price,
    leverage := 2, status := "open", filled_size_sats := 0, nostr_event_id := none,
    created_at := t }

/-- Scenario S2 of the spec: bids (49990, t=1), (49990, t=2), (50010, t=3). -/
def s2Ledger : Ledger :=
  { accounts := [], orders := [s2Bid 1 49990 1, s2Bid 2 49990 2, s2Bid 3 50010 3],
    positions := [], trades := [], funding_rates := [], insurance_fund := 0,
    next_id := 11, now := 9 }

/-- Scenario S2 of the spec: a market sell of 50,000 sats. -/
def s2Taker : Order :=
  { id := 10, pubkey := "seller", market := "BTC-USD-PERP", side := "short",
    order_type := "market", size_sats := 50000, price_usd := none, leverage := 2,
    status := "open", filled_size_sats := 0, nostr_event_id := none, created_at := 9 }

/-- A ledger with one funded account, used by the order-flow scenarios. -/
def c2Ledger : Ledger :=
  { accounts := [("alice", 1000000000)], orders := [], positions := [], trades := [],
    funding_rates := [], insurance_fund := 0, next_id := 0, now := 100 }

/-- The fields of the replayed kind-30051 order event of scenario S5. -/
def c1Event : OrderEvent :=
  { id := "evt1", pubkey := "alice", kind := 30051, market := "BTC-USD-PERP",
    side := "long", order_type := "limit", size_sats := 100000, leverage := 5,
    price_usd := some 50000 }

/-- Server state for the replay scenario. -/
def c1App : AppState := { ledger := c2Ledger, processed_transfer_events := [] }

/-- The order row created by the first accepted call of the replay scenario. -/
def c1Order1 : Order :=
  { id := 0, pubkey := "alice", market := "BTC-USD-PERP", side := "long",
    order_type := "limit", size_sats := 100000, price_usd := some 50000,
    leverage := 5, status := "open", filled_size_sats := 0,
    nostr_event_id := some "evt1", created_at := 100 }

/-- The ledger after the first accepted call of the replay scenario. -/
def c1Ledger1 : Ledger :=
  { accounts := [("alice", 979950000)], orders := [c1Order1], positions := [],
    trades := [], funding_rates := [], insurance_fund := 0, next_id := 1, now := 100 }

/-- The server state after the first accepted call of the replay scenario. -/
def c1App1 : AppState :=
  { ledger := c1Ledger1, processed_transfer_events := [] }

theorem pyInt_intCast (n : ℤ) : pyInt (n : ℚ) = n := by
  simp [pyInt, Rat.num_intCast, Rat.den_intCast, Int.tdiv_one]

/-- The notional identity: for a nonzero price the round trip
`usd_to_msats (sats_to_usd s p) p` collapses to `s * 1000`. -/
theorem notional_eq (s : ℤ) (p : ℚ) (hp : p ≠ 0) :
    usd_to_msats (sats_to_usd s p) p = s * 1000 := by
  unfold usd_to_msats sats_to_usd
  rw [mul_div_assoc, div_self hp, mul_one]
  have h : ((s : ℚ) / 100000000) * 100000000000 = ((s * 1000 : ℤ) : ℚ) := by
    push_cast
    ring
  rw [h, pyInt_intCast]

theorem credit_collateral_positions (st : Ledger) (pk : String) (amt : ℤ) :
    (credit_collateral st pk amt).positions = st.positions := by
  unfold credit_collateral; split <;> rfl

theorem credit_collateral_orders (st : Ledger) (pk : String) (amt : ℤ) :
    (credit_collateral st pk amt).orders = st.orders := by
  unfold credit_collateral; split <;> rfl

theorem credit_collateral_insurance (st : Ledger) (pk : String) (amt : ℤ) :
    (credit_collateral st pk amt).insurance_fund = st.insurance_fund := by
  unfold credit_collateral; split <;> rfl

theorem lookup_map_adjust (l : List (String × ℤ)) (pk : String) (f : ℤ → ℤ) :
    List.lookup pk (l.map (fun e => if e.1 = pk then (e.1, f e.2) else e)) =
      (List.lookup pk l).map f := by
  induction l with
  | nil => rfl
  | cons a t ih =>
    obtain ⟨k, v⟩ := a
    simp only [List.map_cons]
    by_cases h : k = pk
    · subst h
      rw [if_pos rfl]
      simp [List.lookup, ih]
    · rw [if_neg (by simpa using h)]
      simp only [List.lookup]
      rw [show (pk == k) = false by simpa using fun hh => h hh.symm]
      exact ih

theorem lookup_append_single (l : List (String × ℤ)) (pk : String) (v : ℤ)
    (h : List.lookup pk l = none) : List.lookup pk (l ++ [(pk, v)]) = some v := by
  induction l with
  | nil => simp [List.lookup]
  | cons a t ih =>
    obtain ⟨k, w⟩ := a
    simp only [List.lookup, List.cons_append] at h ⊢
    cases hk : (pk == k) with
    | true => rw [hk] at h; cases h
    | false => rw [hk] at h; exact ih h

/-- Crediting collateral raises exactly the credited account's balance. -/
theorem get_collateral_credit (st : Ledger) (pk : String) (amt : ℤ) :
    get_collateral_msats (credit_collateral st pk amt) pk =
      get_collateral_msats st pk + amt := by
  unfold get_collateral_msats credit_collateral
  cases h : List.lookup pk st.accounts with
  | none => simp [lookup_append_single st.accounts pk amt h, h]
  | some bal => simp [lookup_map_adjust st.accounts pk (fun x => x + amt), h]

/-- Inversion of a successful `debit_collateral`: it finds the account,
checks the balance and lowers it by the debited amount; no other table
changes. -/
theorem debit_collateral_spec (st : Ledger) (pk : String) (amt : ℤ) (st1 : Ledger)
    (h : debit_collateral st pk amt = some st1) :
    get_collateral_msats st1 pk = get_collateral_msats st pk - amt ∧
      amt ≤ get_collateral_msats st pk ∧
      st1.orders = st.orders ∧ st1.positions = st.positions ∧
      st1.trades = st.trades ∧ st1.insurance_fund = st.insurance_fund ∧
      st1.next_id = st.next_id ∧ st1.now = st.now ∧
      (st1.accounts.lookup pk).isSome := by
  unfold debit_collateral at h
  split at h
  · cases h
  · rename_i bal hl
    split at h
    · cases h
    · rename_i hlt
      cases h
      refine ⟨?_, ?_, rfl, rfl, rfl, rfl, rfl, rfl, ?_⟩
      · unfold get_collateral_msats
        simp [lookup_map_adjust st.accounts pk (fun x => x - amt), hl]
      · unfold get_collateral_msats
        rw [hl]
        simp only [Option.getD_some]
        omega
      · show ((st.accounts.map _).lookup pk).isSome = true
        rw [lookup_map_adjust st.accounts pk (fun x => x - amt), hl]
        rfl

theorem pyInt_eq_floor (q : ℚ) (h : 0 ≤ q) : pyInt q = ⌊q⌋ := by
  unfold pyInt
  rw [Rat.floor_def]
  exact Int.tdiv_eq_ediv (Rat.num_nonneg.mpr h) (Int.natCast_nonneg _)

/-- C3: for positive size and price, the notional
`usd_to_msats(sats_to_usd(size_sats, price), price)` used for margin,
fees, funding and the margin ratio is exactly `size_sats * 1000`,
independent of the price argument. -/
theorem claim_C3 (size_sats : ℤ) (price : ℚ) (hs : 0 < size_sats) (hp : 0 < price) :
    usd_to_msats (sats_to_usd size_sats price) price = size_sats * 1000 :=
  notional_eq size_sats price (ne_of_gt hp)

theorem claim_C3_witness :
    0 < (2 : ℤ) ∧ 0 < (50000 : ℚ) ∧
      usd_to_msats (sats_to_usd 2 50000) 50000 = 2 * 1000 :=
  ⟨by decide, by decide, claim_C3 2 50000 (by decide) (by decide)⟩

/-- C8 fails as stated at `maintenance_margin_pct = 0`: the Python line
`mm = maintenance_margin_pct or config.MAINTENANCE_MARGIN_PCT` treats the
falsy float `0.0` like `None` and substitutes the config constant
(0.05 in the spec), so the result is not `entry * (1 - 1/leverage + 0)`. -/
theorem claim_C8_counterexample :
    calc_liquidation_price specConfig "long" 50000 5 (some 0) ≠
      50000 * (1 - 1 / ((5 : ℤ) : ℚ) + 0) := by
  decide

/-- C8 (amended): for every side, entry price > 0, leverage ≥ 1 and
maintenance-margin fraction mm > 0 (strictly positive: a zero argument is
falsy in Python and falls back to the config constant), the liquidation
price is `entry * (1 - 1/leverage + mm)` for a long and
`entry * (1 + 1/leverage - mm)` for a short; at entry 50,000, leverage 5,
mm 0.05 this gives 42,500 and 57,500. -/
theorem claim_C8 (cfg : Config) (entry : ℚ) (leverage : ℤ) (mm : ℚ)
    (hentry : 0 < entry) (hlev : 1 ≤ leverage) (hmm : 0 < mm) :
    calc_liquidation_price cfg "long" entry leverage (some mm) =
        entry * (1 - 1 / (leverage : ℚ) + mm) ∧
      calc_liquidation_price cfg "short" entry leverage (some mm) =
        entry * (1 + 1 / (leverage : ℚ) - mm) ∧
      calc_liquidation_price cfg "long" 50000 5 (some (1/20)) = 42500 ∧
      calc_liquidation_price cfg "short" 50000 5 (some (1/20)) = 57500 := by
  have hne : mm ≠ 0 := ne_of_gt hmm
  refine ⟨?_, ?_, ?_, ?_⟩
  · simp [calc_liquidation_price, hne]
  · simp [calc_liquidation_price, hne]
  · simp only [calc_liquidation_price]
    norm_num
  · simp only [calc_liquidation_price]
    norm_num
    decide

theorem claim_C8_witness :
    0 < (50000 : ℚ) ∧ 1 ≤ (5 : ℤ) ∧ 0 < (1/20 : ℚ) ∧
      (calc_liquidation_price specConfig "long" 50000 5 (some (1/20)) =
          50000 * (1 - 1 / ((5 : ℤ) : ℚ) + 1/20) ∧
        calc_liquidation_price specConfig "short" 50000 5 (some (1/20)) =
          50000 * (1 + 1 / ((5 : ℤ) : ℚ) - 1/20) ∧
        calc_liquidation_price specConfig "long" 50000 5 (some (1/20)) = 42500 ∧
        calc_liquidation_price specConfig "short" 50000 5 (some (1/20)) = 57500) :=
  ⟨by decide, by decide, by decide,
    claim_C8 specConfig 50000 5 (1/20) (by decide) (by decide) (by decide)⟩

/-- C5: every executed fill creates exactly two positions — one for the
taker and one for the maker, each on their own side, both with
`size_sats` equal to the fill size and `entry_price_usd` equal to the
fill price. -/
theorem claim_C5 (cfg : Config) (markets : List (String × Market)) (st : Ledger)
    (taker maker : Order) (fill_size : ℤ) (fill_price : ℚ) :
    ∃ pt pm : Position,
      (execute_fill cfg markets st taker maker fill_size fill_price).positions =
        st.positions ++ [pt, pm] ∧
      pt.pubkey = taker.pubkey ∧ pt.side = taker.side ∧
      pt.size_sats = fill_size ∧ pt.entry_price_usd = fill_price ∧
      pm.pubkey = maker.pubkey ∧ pm.side = maker.side ∧
      pm.size_sats = fill_size ∧ pm.entry_price_usd = fill_price := by
  unfold execute_fill record_trade
  dsimp only
  split <;>
    (unfold update_order_status fill_position create_position
     dsimp only
     exact ⟨_, _, by rw [List.append_assoc]; exact rfl, rfl, rfl, rfl, rfl, rfl, rfl, rfl, rfl⟩)

/-- C10: whenever `place_order` returns an error, the ledger state is
completely unchanged — no collateral debit, no order row, no position,
no trade. -/
theorem claim_C10 (cfg : Config) (markets : List (String × Market)) (st : Ledger)
    (pubkey market side order_type : String) (size_sats leverage : ℤ)
    (price_usd : Option ℚ) (nid : Option String) (mark : Option ℚ)
    (o : Option Order) (err : String) (st1 : Ledger)
    (hp : place_order cfg markets st pubkey market side order_type size_sats leverage
        price_usd nid mark = ((o, some err), st1)) :
    st1 = st ∧ o = none := by
  simp only [place_order] at hp
  repeat' split at hp
  all_goals simp_all

/-- C9: the oracle returns the cached price while it is younger than the
30-second TTL; on upstream failure it returns the last good cached value
even when stale; it returns nothing only when nothing was ever cached, and
in that state a market order fails with the oracle-unavailable error. -/
theorem claim_C9 :
    (∀ (now : ℚ) (fetch : Option ℚ) (c : OracleCache) (p : ℚ),
        c.price = some p → now - c.ts < CACHE_TTL →
        (get_index_price now fetch c "BTC-USD-PERP").1 = some p) ∧
    (∀ (now : ℚ) (c : OracleCache) (p : ℚ), c.price = some p →
        (get_index_price now none c "BTC-USD-PERP").1 = some p) ∧
    (∀ (now : ℚ) (fetch : Option ℚ) (c : OracleCache),
        (get_index_price now fetch c "BTC-USD-PERP").1 = none → c.price = none) ∧
    (∀ (cfg : Config) (markets : List (String × Market)) (st : Ledger)
        (pubkey market side : String) (size leverage : ℤ) (nid : Option String)
        (mkt : Market),
        markets.lookup market = some mkt → (side = "long" ∨ side = "short") →
        0 < size → 1 ≤ leverage → leverage ≤ mkt.max_leverage →
        place_order cfg markets st pubkey market side "market" size leverage
            none nid none =
          ((none, some "Cannot determine price — oracle unavailable"), st)) := by
  refine ⟨?_, ?_, ?_, ?_⟩
  · intro now fetch c p hc hlt
    unfold get_index_price
    rw [if_neg (by decide), if_pos ⟨by simp [hc], hlt⟩]
    exact hc
  · intro now c p hc
    unfold get_index_price
    rw [if_neg (by decide)]
    by_cases hl : c.price.isSome ∧ now - c.ts < CACHE_TTL
    · rw [if_pos hl]; exact hc
    · rw [if_neg hl]; exact hc
  · intro now fetch c h
    unfold get_index_price at h
    rw [if_neg (by decide)] at h
    split at h
    · exact h
    · split at h
      · split at h
        · cases h
        · exact h
      · exact h
  · intro cfg markets st pubkey market side size leverage nid mkt hlm hside hs hl1 hl2
    unfold place_order
    rw [hlm]
    dsimp only
    rw [if_neg (not_not_intro hside), if_neg (by decide), if_neg (not_le.mpr hs),
      if_neg (by omega), if_neg (by simp)]
    rfl

theorem claim_C9_witness :
    ((⟨some 49000, 0⟩ : OracleCache).price = some 49000 ∧
        (10 : ℚ) - (⟨some 49000, 0⟩ : OracleCache).ts < CACHE_TTL ∧
        (get_index_price 10 (some 50000) ⟨some 49000, 0⟩ "BTC-USD-PERP").1 = some 49000) ∧
      ((get_index_price 100 none ⟨some 49000, 0⟩ "BTC-USD-PERP").1 = some 49000) ∧
      ((get_index_price 0 none ⟨none, 0⟩ "BTC-USD-PERP").1 = none ∧
        (⟨none, 0⟩ : OracleCache).price = none) ∧
      (place_order specConfig specMarkets
          { accounts := [("alice", 1000000000)], orders := [], positions := [],
            trades := [], funding_rates := [], insurance_fund := 0, next_id := 0, now := 50 }
          "alice" "BTC-USD-PERP" "long" "market" 100000 5 none none none =
        ((none, some "Cannot determine price — oracle unavailable"),
          { accounts := [("alice", 1000000000)], orders := [], positions := [],
            trades := [], funding_rates := [], insurance_fund := 0, next_id := 0, now := 50 })) :=
  ⟨⟨rfl, by decide, claim_C9.1 10 (some 50000) ⟨some 49000, 0⟩ 49000 rfl (by decide)⟩,
    claim_C9.2.1 100 ⟨some 49000, 0⟩ 49000 rfl,
    ⟨rfl, claim_C9.2.2.1 0 none ⟨none, 0⟩ rfl⟩,
    claim_C9.2.2.2 specConfig specMarkets _ "alice" "BTC-USD-PERP" "long" 100000 5 none
      specMarket rfl (Or.inl rfl) (by decide) (by decide) (by decide)⟩

/-- C7: a liquidated position settles as specified — with
`equity = collateral + pnl` and `liq_fee = floor(notional · 0.005)`:
when `equity ≥ liq_fee` the insurance fund gains the fee and the user is
credited `equity − liq_fee`; when `0 < equity < liq_fee` the fund gains
all the equity and the user nothing; when `equity ≤ 0` the fund absorbs
`|equity| + liq_fee`, saturating at zero; the position row is deleted in
every branch. -/
theorem claim_C7 (cfg : Config) (st : Ledger) (pos : Position) (mark : ℚ)
    (hmark : 0 < mark) (hsize : 0 < pos.size_sats)
    (hliq : calc_margin_ratio pos.collateral_msats
        (calc_unrealized_pnl_msats pos.side pos.size_sats pos.entry_price_usd mark)
        pos.size_sats mark < cfg.MAINTENANCE_MARGIN_PCT) :
    (check_and_liquidate_position cfg st pos (some mark)).1 = true ∧
    (let st3 := (check_and_liquidate_position cfg st pos (some mark)).2
     let pnl := calc_unrealized_pnl_msats pos.side pos.size_sats pos.entry_price_usd mark
     let equity := pos.collateral_msats + pnl
     let liq_fee := ⌊((pos.size_sats * 1000 : ℤ) : ℚ) * LIQUIDATION_FEE_PCT⌋
     st3.positions = st.positions.filter (fun p => ¬ p.id = pos.id) ∧
     (liq_fee ≤ equity →
        st3.insurance_fund = st.insurance_fund + liq_fee ∧
        get_collateral_msats st3 pos.pubkey =
          get_collateral_msats st pos.pubkey + (equity - liq_fee)) ∧
     (equity < liq_fee → 0 < equity →
        st3.insurance_fund = st.insurance_fund + equity ∧
        get_collateral_msats st3 pos.pubkey = get_collateral_msats st pos.pubkey) ∧
     (equity < liq_fee → equity ≤ 0 →
        st3.insurance_fund = max 0 (st.insurance_fund - (|equity| + liq_fee)) ∧
        get_collateral_msats st3 pos.pubkey = get_collateral_msats st pos.pubkey)) := by
  have hfee : pyInt ((usd_to_msats (sats_to_usd pos.size_sats mark) mark : ℚ) *
      LIQUIDATION_FEE_PCT) = ⌊((pos.size_sats * 1000 : ℤ) : ℚ) * LIQUIDATION_FEE_PCT⌋ := by
    rw [notional_eq pos.size_sats mark (ne_of_gt hmark)]
    refine pyInt_eq_floor _ (mul_nonneg ?_ (by norm_num [LIQUIDATION_FEE_PCT]))
    exact_mod_cast (by omega : (0 : ℤ) ≤ pos.size_sats * 1000)
  unfold check_and_liquidate_position
  dsimp only
  rw [if_neg (ne_of_gt hmark), if_neg (not_le.mpr hliq)]
  dsimp only
  rw [hfee]
  constructor
  · rfl
  set pnl := calc_unrealized_pnl_msats pos.side pos.size_sats pos.entry_price_usd mark with hpnl
  set equity := pos.collateral_msats + pnl with heq
  set liq_fee := ⌊((pos.size_sats * 1000 : ℤ) : ℚ) * LIQUIDATION_FEE_PCT⌋ with hlf
  by_cases h1 : liq_fee ≤ equity
  · rw [if_pos h1]
    dsimp only
    by_cases h2 : (0:ℤ) < equity - liq_fee
    · rw [if_pos h2]
      refine ⟨?_, ?_, ?_, ?_⟩
      · simp [credit_collateral_positions, close_position, credit_insurance_fund]
      · intro _
        refine ⟨by simp [credit_collateral_insurance, close_position, credit_insurance_fund], ?_⟩
        rw [get_collateral_credit]
        simp [get_collateral_msats, close_position, credit_insurance_fund]
      · intro hcon _; omega
      · intro hcon _; omega
    · rw [if_neg h2]
      have h0 : equity - liq_fee = 0 := by omega
      refine ⟨?_, ?_, ?_, ?_⟩
      · simp [close_position, credit_insurance_fund]
      · intro _
        refine ⟨by simp [close_position, credit_insurance_fund], ?_⟩
        simp [h0, get_collateral_msats, close_position, credit_insurance_fund]
      · intro hcon _; omega
      · intro hcon _; omega
  · rw [if_neg h1]
    by_cases h2 : 0 < equity
    · rw [if_pos h2]
      dsimp only
      rw [if_neg (by omega : ¬ (0 : ℤ) < 0)]
      refine ⟨by simp [close_position, credit_insurance_fund], ?_, ?_, ?_⟩
      · intro hcon; omega
      · intro _ _
        exact ⟨by simp [close_position, credit_insurance_fund],
          by simp [get_collateral_msats, close_position, credit_insurance_fund]⟩
      · intro _ hcon; omega
    · rw [if_neg h2]
      dsimp only
      rw [if_neg (by omega : ¬ (0 : ℤ) < 0)]
      refine ⟨by simp [close_position, debit_insurance_fund], ?_, ?_, ?_⟩
      · intro hcon; omega
      · intro _ hcon; omega
      · intro _ _
        exact ⟨by simp [close_position, debit_insurance_fund],
          by simp [get_collateral_msats, close_position, debit_insurance_fund]⟩

theorem claim_C7_witness :
    0 < (47000 : ℚ) ∧ 0 < (100000 : ℤ) ∧
      calc_margin_ratio 10000000
          (calc_unrealized_pnl_msats "long" 100000 50000 47000) 100000 47000 <
        specConfig.MAINTENANCE_MARGIN_PCT ∧
      ((check_and_liquidate_position specConfig
          { accounts := [("bob", 0)], orders := [], positions := [], trades := [],
            funding_rates := [], insurance_fund := 0, next_id := 9, now := 0 }
          { id := 7, pubkey := "bob", market := "BTC-USD-PERP", side := "long",
            size_sats := 100000, entry_price_usd := 50000, collateral_msats := 10000000,
            leverage := 10, liquidation_price_usd := 47500, funding_cost_msats := 0,
            created_at := 0 }
          (some 47000)).1 = true) := by
  refine ⟨by decide, by decide, by decide, ?_⟩
  exact (claim_C7 specConfig
    { accounts := [("bob", 0)], orders := [], positions := [], trades := [],
      funding_rates := [], insurance_fund := 0, next_id := 9, now := 0 }
    { id := 7, pubkey := "bob", market := "BTC-USD-PERP", side := "long",
      size_sats := 100000, entry_price_usd := 50000, collateral_msats := 10000000,
      leverage := 10, liquidation_price_usd := 47500, funding_cost_msats := 0,
      created_at := 0 }
    47000 (by decide) (by decide) (by decide)).1

theorem find?_map_of_pred {α : Type} (g : α → α) (p : α → Bool)
    (hg : ∀ x, p (g x) = p x) (l : List α) :
    (l.map g).find? p = (l.find? p).map g := by
  induction l with
  | nil => rfl
  | cons a t ih =>
    simp only [List.map_cons, List.find?]
    rw [hg a]
    cases hp : p a
    · exact ih
    · rfl

theorem get_position_update_funding (st : Ledger) (pid : ℕ) (d c : ℤ) (q : ℕ) :
    get_position (update_position_funding st pid d c) q =
      (get_position st q).map (fun p =>
        if p.id = pid then
          { p with funding_cost_msats := p.funding_cost_msats + d,
                   collateral_msats := c }
        else p) := by
  unfold get_position update_position_funding
  exact find?_map_of_pred _ _ (fun x => by by_cases h : x.id = pid <;> simp [h]) _

theorem funding_step_get_position_ne (rate mark : ℚ) (st : Ledger) (q : Position)
    (pid : ℕ) (h : ¬ q.id = pid) :
    get_position (funding_step rate mark st q) pid = get_position st pid := by
  have key : ∀ d c, get_position (update_position_funding st q.id d c) pid =
      get_position st pid := by
    intro d c
    rw [get_position_update_funding]
    cases hp : get_position st pid with
    | none => rfl
    | some p =>
      have hpid : p.id = pid := by
        have := List.find?_some hp
        simpa using this
      have h2 : ¬ pid = q.id := fun hh => h hh.symm
      simp [hpid, h2]
  unfold funding_step
  dsimp only
  split
  · rfl
  · split
    · split
      · exact key _ _
      · exact key _ _
    · split
      · exact key _ _
      · exact key _ _

theorem funding_step_self (rate mark : ℚ) (st : Ledger) (p : Position)
    (h : get_position st p.id = some p) :
    get_position (funding_step rate mark st p) p.id =
      some (funding_step_row rate mark p) := by
  have key : ∀ d c, get_position (update_position_funding st p.id d c) p.id =
      some { p with funding_cost_msats := p.funding_cost_msats + d,
                    collateral_msats := c } := by
    intro d c
    rw [get_position_update_funding, h]
    simp
  unfold funding_step funding_step_row
  dsimp only
  split
  · exact h
  · split
    · split
      · rw [key]
      · rw [key]
        simp [sub_eq_add_neg]
    · split
      · rw [key]
      · rw [key]
        simp [sub_eq_add_neg]

theorem funding_fold_preserve (rate mark : ℚ) :
    ∀ (l : List Position) (st : Ledger) (pid : ℕ), (∀ q ∈ l, ¬ q.id = pid) →
      get_position (l.foldl (funding_step rate mark) st) pid = get_position st pid := by
  intro l
  induction l with
  | nil => intro st pid _; rfl
  | cons q t ih =>
    intro st pid h
    rw [List.foldl_cons,
      ih _ _ (fun x hx => h x (List.mem_cons_of_mem _ hx))]
    exact funding_step_get_position_ne rate mark st q pid (h q (List.mem_cons_self _ _))

theorem funding_fold_spec (rate mark : ℚ) :
    ∀ (l : List Position) (st : Ledger) (p : Position), p ∈ l →
      (l.map Position.id).Nodup → get_position st p.id = some p →
      get_position (l.foldl (funding_step rate mark) st) p.id =
        some (funding_step_row rate mark p) := by
  intro l
  induction l with
  | nil => intro st p hp; cases hp
  | cons q t ih =>
    intro st p hp hnd hrow
    rw [List.foldl_cons]
    rcases List.mem_cons.mp hp with h | h
    · subst h
      have hnot : ∀ x ∈ t, ¬ x.id = p.id := by
        intro x hx he
        exact (List.nodup_cons.mp (by simpa using hnd)).1 (he ▸ List.mem_map_of_mem Position.id hx)
      rw [funding_fold_preserve rate mark t _ p.id hnot]
      exact funding_step_self rate mark st p hrow
    · have hqp : ¬ q.id = p.id := by
        intro he
        exact (List.nodup_cons.mp (by simpa using hnd)).1 (he ▸ List.mem_map_of_mem Position.id h)
      refine ih _ p h (by simpa using (List.nodup_cons.mp (by simpa using hnd)).2) ?_
      rw [funding_step_get_position_ne rate mark st q p.id hqp]
      exact hrow

theorem find?_id_of_mem (l : List Position) (p : Position)
    (hnd : (l.map Position.id).Nodup) (hp : p ∈ l) :
    l.find? (fun x => x.id = p.id) = some p := by
  induction l with
  | nil => cases hp
  | cons a t ih =>
    rcases List.mem_cons.mp hp with h | h
    · subst h
      simp [List.find?]
    · have hne : ¬ a.id = p.id := by
        intro he
        exact (List.nodup_cons.mp (by simpa using hnd)).1 (he ▸ List.mem_map_of_mem Position.id h)
      simp only [List.find?]
      rw [show (decide (a.id = p.id)) = false by simpa using hne]
      exact ih (by simpa using (List.nodup_cons.mp (by simpa using hnd)).2) h

theorem pyInt_zero : pyInt 0 = 0 := rfl

/-- C6: in a funding pass over a market with rate `r`, every open position
in that market pays or receives `floor(|r| * size_sats * 1000)` msats:
with `r > 0` longs are debited (collateral clamped at zero) and shorts
credited; with `r < 0` shorts are debited and longs credited;
`funding_cost_msats` moves by `+payment` on the debited side and by
`-payment` on the credited side; with `r = 0` nothing changes. -/
theorem claim_C6 (st : Ledger) (market : String) (mark index : ℚ)
    (hmark : 0 < mark) (hindex : 0 < index)
    (hnd : (st.positions.map Position.id).Nodup) :
    ∀ p ∈ st.positions, p.market = market → 0 < p.size_sats →
      0 ≤ p.collateral_msats →
      (let r := compute_funding_rate mark index
       let payment := pyInt (|r| * ((p.size_sats * 1000 : ℤ) : ℚ))
       let next := apply_funding_for_market st market (some mark) (some index)
       payment = ⌊|r| * ((p.size_sats * 1000 : ℤ) : ℚ)⌋ ∧
       (0 < r → p.side = "long" →
          get_position next p.id = some { p with
            funding_cost_msats := p.funding_cost_msats + payment,
            collateral_msats := max 0 (p.collateral_msats - payment) }) ∧
       (0 < r → p.side = "short" →
          get_position next p.id = some { p with
            funding_cost_msats := p.funding_cost_msats - payment,
            collateral_msats := p.collateral_msats + payment }) ∧
       (r < 0 → p.side = "short" →
          get_position next p.id = some { p with
            funding_cost_msats := p.funding_cost_msats + payment,
            collateral_msats := max 0 (p.collateral_msats - payment) }) ∧
       (r < 0 → p.side = "long" →
          get_position next p.id = some { p with
            funding_cost_msats := p.funding_cost_msats - payment,
            collateral_msats := p.collateral_msats + payment }) ∧
       (r = 0 → get_position next p.id = some p)) := by
  intro p hp hmkt hsz hcol
  dsimp only
  have hney : ¬ (mark = 0 ∨ index = 0) := by
    push_neg
    exact ⟨ne_of_gt hmark, ne_of_gt hindex⟩
  have happ : apply_funding_for_market st market (some mark) (some index) =
      record_funding_rate
        ((get_all_open_positions st market).foldl
          (funding_step (compute_funding_rate mark index) mark) st)
        market (compute_funding_rate mark index) mark index := by
    unfold apply_funding_for_market
    dsimp only
    rw [if_neg hney]
  have hmem : p ∈ get_all_open_positions st market := by
    unfold get_all_open_positions
    rw [List.mem_filter]
    exact ⟨hp, by simpa using hmkt⟩
  have hsub : ((get_all_open_positions st market).map Position.id).Nodup := by
    unfold get_all_open_positions
    exact hnd.sublist (List.Sublist.map _ (List.filter_sublist _))
  have hrow : get_position st p.id = some p := find?_id_of_mem st.positions p hnd hp
  have hgp : get_position (apply_funding_for_market st market (some mark) (some index))
      p.id = some (funding_step_row (compute_funding_rate mark index) mark p) := by
    rw [happ]
    exact funding_fold_spec (compute_funding_rate mark index) mark _ st p hmem hsub hrow
  set r := compute_funding_rate mark index with hrdef
  set payment := pyInt (|r| * ((p.size_sats * 1000 : ℤ) : ℚ)) with hpaydef
  have hszn : (0 : ℚ) ≤ ((p.size_sats * 1000 : ℤ) : ℚ) := by
    exact_mod_cast (by omega : (0 : ℤ) ≤ p.size_sats * 1000)
  have hpayfloor : payment = ⌊|r| * ((p.size_sats * 1000 : ℤ) : ℚ)⌋ := by
    rw [hpaydef]
    exact pyInt_eq_floor _ (mul_nonneg (abs_nonneg _) hszn)
  have hrw : funding_step_row r mark p =
      if payment = 0 then p
      else if 0 < r then
        if p.side = "long" then
          { p with funding_cost_msats := p.funding_cost_msats + payment,
                   collateral_msats := max 0 (p.collateral_msats - payment) }
        else
          { p with funding_cost_msats := p.funding_cost_msats - payment,
                   collateral_msats := p.collateral_msats + payment }
      else if p.side = "short" then
        { p with funding_cost_msats := p.funding_cost_msats + payment,
                 collateral_msats := max 0 (p.collateral_msats - payment) }
      else
        { p with funding_cost_msats := p.funding_cost_msats - payment,
                 collateral_msats := p.collateral_msats + payment } := by
    unfold funding_step_row
    dsimp only
    rw [notional_eq _ _ (ne_of_gt hmark)]
  refine ⟨hpayfloor, ?_, ?_, ?_, ?_, ?_⟩
  · intro hr hside
    rw [hgp, hrw]
    by_cases h0 : payment = 0
    · rw [if_pos h0]
      simp [h0, max_eq_right hcol]
    · rw [if_neg h0, if_pos hr, if_pos hside]
  · intro hr hside
    rw [hgp, hrw]
    by_cases h0 : payment = 0
    · rw [if_pos h0]
      simp [h0]
    · rw [if_neg h0, if_pos hr, if_neg (by simp [hside])]
  · intro hr hside
    rw [hgp, hrw]
    by_cases h0 : payment = 0
    · rw [if_pos h0]
      simp [h0, max_eq_right hcol]
    · rw [if_neg h0, if_neg (not_lt.mpr (le_of_lt hr)), if_pos hside]
  · intro hr hside
    rw [hgp, hrw]
    by_cases h0 : payment = 0
    · rw [if_pos h0]
      simp [h0]
    · rw [if_neg h0, if_neg (not_lt.mpr (le_of_lt hr)), if_neg (by simp [hside])]
  · intro hr
    have h0 : payment = 0 := by
      rw [hpaydef, hr]
      simp [pyInt_zero]
    rw [hgp, hrw, if_pos h0]

theorem claim_C6_witness :
    0 < (50500 : ℚ) ∧ 0 < (50000 : ℚ) ∧
      (s3Ledger.positions.map Position.id).Nodup ∧
      s3Long ∈ s3Ledger.positions ∧ s3Long.market = "BTC-USD-PERP" ∧
      0 < s3Long.size_sats ∧ 0 ≤ s3Long.collateral_msats ∧
      0 < compute_funding_rate 50500 50000 ∧ s3Long.side = "long" ∧
      get_position (apply_funding_for_market s3Ledger "BTC-USD-PERP"
          (some 50500) (some 50000)) 1 =
        some { s3Long with funding_cost_msats := 300000,
                           collateral_msats := 19999700000 } := by
  refine ⟨by decide, by decide, by decide, by decide, rfl, by decide, by decide,
    by decide, rfl, ?_⟩
  have h := (claim_C6 s3Ledger "BTC-USD-PERP" 50500 50000 (by decide) (by decide)
      (by decide) s3Long (by decide) rfl (by decide) (by decide)).2.1
      (by decide) rfl
  exact h.trans (by decide)

theorem claim_C10_witness :
    (place_order specConfig [] emptyLedger "x" "NOPE" "long" "limit" 1 1 (some 1)
        none none = ((none, some "Unknown market: NOPE"), emptyLedger)) ∧
      (emptyLedger = emptyLedger ∧ (none : Option Order) = none) :=
  ⟨rfl, claim_C10 specConfig [] emptyLedger "x" "NOPE" "long" "limit" 1 1 (some 1)
    none none none "Unknown market: NOPE" emptyLedger rfl⟩

theorem longTakerLe_total (a b : Order) : (longTakerLe a b || longTakerLe b a) = true := by
  unfold longTakerLe
  rcases lt_trichotomy (a.price_usd.getD 0) (b.price_usd.getD 0) with h | h | h
  · simp [h]
  · rcases le_total a.created_at b.created_at with h2 | h2 <;> simp [h, h2]
  · simp [h]

theorem longTakerLe_trans (a b c : Order) (h1 : longTakerLe a b = true)
    (h2 : longTakerLe b c = true) : longTakerLe a c = true := by
  unfold longTakerLe at h1 h2 ⊢
  simp only [Bool.or_eq_true, Bool.and_eq_true, decide_eq_true_eq] at h1 h2 ⊢
  rcases h1 with h1 | ⟨h1e, h1t⟩ <;> rcases h2 with h2 | ⟨h2e, h2t⟩
  · exact Or.inl (lt_trans h1 h2)
  · exact Or.inl (h2e ▸ h1)
  · exact Or.inl (h1e ▸ h2)
  · exact Or.inr ⟨h1e.trans h2e, le_trans h1t h2t⟩

theorem shortTakerLe_total (a b : Order) : (shortTakerLe a b || shortTakerLe b a) = true := by
  unfold shortTakerLe
  rcases lt_trichotomy (a.price_usd.getD 0) (b.price_usd.getD 0) with h | h | h
  · simp [h]
  · rcases le_total a.created_at b.created_at with h2 | h2 <;> simp [h, h2]
  · simp [h]

theorem shortTakerLe_trans (a b c : Order) (h1 : shortTakerLe a b = true)
    (h2 : shortTakerLe b c = true) : shortTakerLe a c = true := by
  unfold shortTakerLe at h1 h2 ⊢
  simp only [Bool.or_eq_true, Bool.and_eq_true, decide_eq_true_eq] at h1 h2 ⊢
  rcases h1 with h1 | ⟨h1e, h1t⟩ <;> rcases h2 with h2 | ⟨h2e, h2t⟩
  · exact Or.inl (lt_trans h2 h1)
  · exact Or.inl (h2e ▸ h1)
  · exact Or.inl (h1e ▸ h2)
  · exact Or.inr ⟨h1e.trans h2e, le_trans h1t h2t⟩

/-- C4: matching follows price-time priority — a long taker's candidate
list is the open short limit orders sorted by ascending
`(price_usd, created_at)`, a short taker's candidate list is the open
long limit orders sorted by descending price then ascending time; in the
S2 scenario a market sell of 50,000 sats fills 30,000 at 50,010 (t=3)
then 20,000 at 49,990 (t=1) and leaves the t=2 bid untouched. -/
theorem claim_C4 :
    (∀ (st : Ledger) (taker : Order), taker.side = "long" →
        List.Pairwise (fun a b => longTakerLe a b = true) (match_candidates st taker) ∧
        (match_candidates st taker).Perm
          ((st.orders.filter (fun o =>
              o.market = taker.market && o.side = "short" && o.status = "open")).filter
            (fun o => o.order_type = "limit"))) ∧
    (∀ (st : Ledger) (taker : Order), taker.side = "short" →
        List.Pairwise (fun a b => shortTakerLe a b = true) (match_candidates st taker) ∧
        (match_candidates st taker).Perm
          ((st.orders.filter (fun o =>
              o.market = taker.market && o.side = "long" && o.status = "open")).filter
            (fun o => o.order_type = "limit"))) ∧
    ((match_order specConfig specMarkets s2Ledger s2Taker 50000).1 =
        [{ size_sats := 30000, price_usd := 50010 }, { size_sats := 20000, price_usd := 49990 }] ∧
      ((get_order (match_order specConfig specMarkets s2Ledger s2Taker 50000).2.2 3).map
          (fun o => (o.status, o.filled_size_sats))) = some ("filled", 30000) ∧
      ((get_order (match_order specConfig specMarkets s2Ledger s2Taker 50000).2.2 1).map
          (fun o => (o.status, o.filled_size_sats))) = some ("partially_filled", 20000) ∧
      (get_order (match_order specConfig specMarkets s2Ledger s2Taker 50000).2.2 2) =
        some (s2Bid 2 49990 2)) := by
  refine ⟨?_, ?_, by decide⟩
  · intro st taker hside
    haveI ht : IsTotal Order (fun a b => longTakerLe a b = true) :=
      ⟨fun a b => Bool.or_eq_true _ _ ▸ longTakerLe_total a b⟩
    haveI htr : IsTrans Order (fun a b => longTakerLe a b = true) :=
      ⟨longTakerLe_trans⟩
    unfold match_candidates
    dsimp only
    rw [hside]
    rw [if_pos rfl]
    constructor
    · exact List.sorted_insertionSort _ _
    · refine (List.perm_insertionSort _ _).trans ?_
      unfold get_open_orders_for_market
      exact (List.perm_insertionSort _ _).filter _
  · intro st taker hside
    haveI ht : IsTotal Order (fun a b => shortTakerLe a b = true) :=
      ⟨fun a b => Bool.or_eq_true _ _ ▸ shortTakerLe_total a b⟩
    haveI htr : IsTrans Order (fun a b => shortTakerLe a b = true) :=
      ⟨shortTakerLe_trans⟩
    unfold match_candidates
    dsimp only
    rw [hside]
    rw [if_neg (by decide)]
    constructor
    · exact List.sorted_insertionSort _ _
    · refine (List.perm_insertionSort _ _).trans ?_
      unfold get_open_orders_for_market
      exact (List.perm_insertionSort _ _).filter _

theorem claim_C4_witness :
    s2Taker.side = "short" ∧
      (List.Pairwise (fun a b => shortTakerLe a b = true)
          (match_candidates s2Ledger s2Taker) ∧
        (match_candidates s2Ledger s2Taker).Perm
          ((s2Ledger.orders.filter (fun o =>
              o.market = s2Taker.market && o.side = "long" && o.status = "open")).filter
            (fun o => o.order_type = "limit"))) :=
  ⟨rfl, claim_C4.2.1 s2Ledger s2Taker rfl⟩

theorem update_order_status_accounts (st : Ledger) (oid : ℕ) (s : String)
    (f : Option ℤ) : (update_order_status st oid s f).accounts = st.accounts := rfl

theorem execute_fill_accounts (cfg : Config) (markets : List (String × Market))
    (st : Ledger) (t m : Order) (fs : ℤ) (fp : ℚ) :
    (execute_fill cfg markets st t m fs fp).accounts = st.accounts := by
  unfold execute_fill record_trade update_order_status fill_position create_position
  dsimp only
  split <;> rfl

theorem match_loop_accounts (cfg : Config) (markets : List (String × Market))
    (taker : Order) (tp : ℚ) :
    ∀ (cands : List Order) (rem : ℤ) (st : Ledger) (fills : List Fill),
      (match_loop cfg markets taker tp cands rem st fills).2.1.accounts = st.accounts := by
  intro cands
  induction cands with
  | nil => intro rem st fills; rfl
  | cons maker rest ih =>
    intro rem st fills
    unfold match_loop
    dsimp only
    split
    · rfl
    · split
      · rfl
      · split
        · rfl
        · split
          · exact ih rem st fills
          · rw [ih]
            exact execute_fill_accounts cfg markets st taker maker _ _

theorem match_order_accounts (cfg : Config) (markets : List (String × Market))
    (st : Ledger) (taker : Order) (rp : ℚ) :
    (match_order cfg markets st taker rp).2.2.accounts = st.accounts := by
  unfold match_order
  dsimp only
  split
  · rw [update_order_status_accounts, match_loop_accounts]
  · split
    · rw [update_order_status_accounts, match_loop_accounts]
    · rw [match_loop_accounts]

theorem match_order_orders_length (cfg : Config) (markets : List (String × Market))
    (st : Ledger) (taker : Order) (rp : ℚ) :
    (match_order cfg markets st taker rp).2.2.orders.length = st.orders.length := by
  have hexec : ∀ st' t m fs fp,
      (execute_fill cfg markets st' t m fs fp).orders.length = st'.orders.length := by
    intro st' t m fs fp
    unfold execute_fill record_trade update_order_status fill_position create_position
    dsimp only
    split <;> simp
  have hloop : ∀ (tp : ℚ) (cands : List Order) (rem : ℤ) (st' : Ledger) (fills : List Fill),
      (match_loop cfg markets taker tp cands rem st' fills).2.1.orders.length =
        st'.orders.length := by
    intro tp cands
    induction cands with
    | nil => intro rem st' fills; rfl
    | cons maker rest ih =>
      intro rem st' fills
      unfold match_loop
      dsimp only
      split
      · rfl
      · split
        · rfl
        · split
          · rfl
          · split
            · exact ih rem st' fills
            · rw [ih, hexec]
  unfold match_order
  dsimp only
  split
  · unfold update_order_status
    dsimp only
    rw [List.length_map]
    exact hloop _ _ _ _ _
  · split
    · unfold update_order_status
      dsimp only
      rw [List.length_map]
      exact hloop _ _ _ _ _
    · exact hloop _ _ _ _ _

theorem match_loop_remaining_le (cfg : Config) (markets : List (String × Market))
    (taker : Order) (tp : ℚ) :
    ∀ (cands : List Order) (rem : ℤ) (st : Ledger) (fills : List Fill),
      (match_loop cfg markets taker tp cands rem st fills).1 ≤ rem := by
  intro cands
  induction cands with
  | nil => intro rem st fills; exact le_refl _
  | cons maker rest ih =>
    intro rem st fills
    unfold match_loop
    dsimp only
    split
    · exact le_refl _
    · split
      · exact le_refl _
      · split
        · exact le_refl _
        · split
          · exact ih rem st fills
          · rename_i hrem hg1 hg2 hfill
            refine le_trans (ih _ _ _) ?_
            omega

theorem match_loop_state_of_eq (cfg : Config) (markets : List (String × Market))
    (taker : Order) (tp : ℚ) :
    ∀ (cands : List Order) (rem : ℤ) (st : Ledger) (fills : List Fill),
      (match_loop cfg markets taker tp cands rem st fills).1 = rem →
      (match_loop cfg markets taker tp cands rem st fills).2.1 = st := by
  intro cands
  induction cands with
  | nil => intro rem st fills _; rfl
  | cons maker rest ih =>
    intro rem st fills heq
    unfold match_loop at heq ⊢
    dsimp only at heq ⊢
    by_cases h1 : rem ≤ 0
    · rw [if_pos h1]
    · rw [if_neg h1] at heq ⊢
      by_cases h2 : taker.side = "long" ∧ taker.order_type = "limit" ∧
          tp < maker.price_usd.getD 0
      · rw [if_pos h2]
      · rw [if_neg h2] at heq ⊢
        by_cases h3 : taker.side = "short" ∧ taker.order_type = "limit" ∧
            maker.price_usd.getD 0 < tp
        · rw [if_pos h3]
        · rw [if_neg h3] at heq ⊢
          by_cases h4 : min rem (maker.size_sats - maker.filled_size_sats) ≤ 0
          · rw [if_pos h4] at heq ⊢
            exact ih rem st fills heq
          · rw [if_neg h4] at heq
            exfalso
            have hle := match_loop_remaining_le cfg markets taker tp rest
              (rem - min rem (maker.size_sats - maker.filled_size_sats))
              (execute_fill cfg markets st taker maker
                (min rem (maker.size_sats - maker.filled_size_sats))
                (maker.price_usd.getD 0))
              (fills ++ [{ size_sats := min rem (maker.size_sats - maker.filled_size_sats),
                           price_usd := maker.price_usd.getD 0 }])
            omega

theorem pyOrOpt_ne_zero (x : Option ℚ) (y : ℚ) (hy : ¬ y = 0) : ¬ pyOrOpt x y = 0 := by
  unfold pyOrOpt
  cases x with
  | none => exact hy
  | some v =>
    show ¬ (if v = 0 then y else v) = 0
    by_cases hv : v = 0
    · rw [if_pos hv]; exact hy
    · rw [if_neg hv]; exact hv

/-- The required collateral does not depend on the (nonzero) price used:
the notional collapses to `size_sats * 1000` either way. -/
theorem required_collateral_price_irrel (cfg : Config) (s l : ℤ) (p q : ℚ)
    (hp : ¬ p = 0) (hq : ¬ q = 0) (fee : Option ℚ) :
    required_collateral_msats cfg s l p fee = required_collateral_msats cfg s l q fee := by
  unfold required_collateral_msats
  rw [notional_eq s p hp, notional_eq s q hq]

/-- C2: an accepted order that matched nothing can be cancelled at once by
its owner, and the cancellation restores the account's futures collateral
to exactly its value before the `place_order` call (for both limit and
market orders, at any later mark price). -/
theorem claim_C2 (cfg : Config) (markets : List (String × Market)) (st : Ledger)
    (pubkey market side order_type : String) (size_sats leverage : ℤ)
    (price_usd : Option ℚ) (nid : Option String) (mark mark2 : Option ℚ)
    (o : Order) (st1 : Ledger)
    (hfresh : ∀ x ∈ st.orders, ¬ x.id = st.next_id)
    (hp : place_order cfg markets st pubkey market side order_type size_sats leverage
        price_usd nid mark = ((some o, none), st1))
    (hzero : o.filled_size_sats = 0) :
    ∃ st2, cancel_order cfg markets st1 pubkey o.id mark2 = ((true, none), st2) ∧
      get_collateral_msats st2 pubkey = get_collateral_msats st pubkey := by
  simp only [place_order] at hp
  split at hp
  · simp at hp
  rename_i mkt hlm
  split at hp
  · simp at hp
  rename_i hside
  split at hp
  · simp at hp
  rename_i htype
  split at hp
  · simp at hp
  rename_i hsz
  split at hp
  · simp at hp
  rename_i hlev
  split at hp
  · simp at hp
  rename_i hlimp
  split at hp
  · simp at hp
  rename_i rp hrpe
  split at hp
  · simp at hp
  rename_i hrp0
  split at hp
  · simp at hp
  rename_i hcol
  split at hp
  · simp at hp
  rename_i st0 hdeb
  simp only [Prod.mk.injEq, Option.some.injEq, and_true] at hp
  obtain ⟨ho, hst1⟩ := hp
  obtain ⟨hd1, hd2, hd3, hd4, hd5, hd6, hd7, hd8, hd9⟩ :=
    debit_collateral_spec st pubkey _ st0 hdeb
  -- the created order row and post-creation state
  have hco : create_order st0 pubkey market side order_type size_sats leverage
      price_usd nid =
    ({ id := st0.next_id, pubkey := pubkey, market := market, side := side,
       order_type := order_type, size_sats := size_sats, price_usd := price_usd,
       leverage := leverage, status := "open", filled_size_sats := 0,
       nostr_event_id := nid, created_at := st0.now },
     { st0 with
        orders := st0.orders ++
          [{ id := st0.next_id, pubkey := pubkey, market := market, side := side,
             order_type := order_type, size_sats := size_sats, price_usd := price_usd,
             leverage := leverage, status := "open", filled_size_sats := 0,
             nostr_event_id := nid, created_at := st0.now }],
        next_id := st0.next_id + 1 }) := rfl
  rw [hco] at ho hst1
  set C : Order :=
    { id := st0.next_id, pubkey := pubkey, market := market, side := side,
      order_type := order_type, size_sats := size_sats, price_usd := price_usd,
      leverage := leverage, status := "open", filled_size_sats := 0,
      nostr_event_id := nid, created_at := st0.now } with hC
  set co2 : Ledger :=
    { st0 with orders := st0.orders ++ [C], next_id := st0.next_id + 1 } with hco2
  -- zero fills: the matching loop did not change the state
  have hM : (match_order cfg markets co2 C rp).2.1 = 0 := by
    rw [← ho] at hzero
    exact hzero
  unfold match_order at hM hst1
  dsimp only at hM hst1
  have hr1 : (match_loop cfg markets C (pyOrOpt price_usd rp)
      (match_candidates co2 C) (size_sats - 0) co2 []).1 = size_sats - 0 := by omega
  have hstloop := match_loop_state_of_eq cfg markets C (pyOrOpt price_usd rp)
    (match_candidates co2 C) (size_sats - 0) co2 [] hr1
  rw [hr1] at hst1
  rw [if_neg (by omega), if_neg (by omega)] at hst1
  rw [hstloop] at hst1
  -- st1 is the post-creation state; now run the cancellation
  have hfind : get_order st1 C.id = some C := by
    rw [← hst1]
    unfold get_order
    show ((st0.orders ++ [C]).find? (fun x => x.id = C.id)) = some C
    rw [List.find?_append]
    have hnone : st0.orders.find? (fun x => x.id = C.id) = none := by
      rw [List.find?_eq_none]
      intro x hx
      rw [hd3] at hx
      simp only [decide_eq_true_eq]
      have := hfresh x hx
      rw [hd7]
      exact this
    rw [hnone]
    simp [List.find?]
  have hone : ¬ (1 : ℚ) = 0 := by norm_num
  have hP2 : ¬ pyOrOpt price_usd (pyOrOpt mark2 1) = 0 :=
    pyOrOpt_ne_zero _ _ (pyOrOpt_ne_zero _ _ hone)
  have hrefund : required_collateral_msats cfg (size_sats - 0) leverage
      (pyOrOpt price_usd (pyOrOpt mark2 1)) (some mkt.taker_fee_pct) =
      required_collateral_msats cfg size_sats leverage rp (some mkt.taker_fee_pct) := by
    rw [sub_zero]
    exact required_collateral_price_irrel cfg size_sats leverage _ rp hP2 hrp0
      (some mkt.taker_fee_pct)
  have hoid : o.id = C.id := by rw [← ho]
  refine ⟨(cancel_order cfg markets st1 pubkey o.id mark2).2, ?_, ?_⟩
  · unfold cancel_order
    rw [hoid, hfind]
    dsimp only
    rw [if_neg (not_not_intro rfl), if_neg (not_not_intro rfl)]
  · have hacc : get_collateral_msats (update_order_status st1 C.id "cancelled" none)
        pubkey = get_collateral_msats st0 pubkey := by
      unfold get_collateral_msats
      rw [update_order_status_accounts, ← hst1]
    unfold cancel_order
    rw [hoid, hfind]
    dsimp only
    rw [if_neg (not_not_intro rfl), if_neg (not_not_intro rfl)]
    dsimp only
    rw [hlm]
    dsimp only
    rw [get_collateral_credit, hacc, hrefund, hd1]
    omega

theorem claim_C2_witness :
    (∀ x ∈ c2Ledger.orders, ¬ x.id = c2Ledger.next_id) ∧
    ∃ o st1,
      place_order specConfig specMarkets c2Ledger "alice" "BTC-USD-PERP" "long" "limit"
          100000 5 (some 50000) none none = ((some o, none), st1) ∧
      o.filled_size_sats = 0 ∧
      ∃ st2, cancel_order specConfig specMarkets st1 "alice" o.id (some 51000) =
          ((true, none), st2) ∧
        get_collateral_msats st2 "alice" = get_collateral_msats c2Ledger "alice" :=
  ⟨by decide, _, _, rfl, by decide,
    claim_C2 specConfig specMarkets c2Ledger "alice" "BTC-USD-PERP" "long" "limit"
      100000 5 (some 50000) none none (some 51000) _ _ (by decide) rfl (by decide)⟩

/-- Inversion of a successful `place_order`: every validation passed, the
price reference resolved, the collateral account was debited by the
required amount and still exists, exactly one order row was appended, and
the returned order carries the submitted `nostr_event_id`. -/
theorem place_order_success_inv (cfg : Config) (markets : List (String × Market))
    (st : Ledger) (pubkey market side order_type : String) (size_sats leverage : ℤ)
    (price_usd : Option ℚ) (nid : Option String) (mark : Option ℚ)
    (o : Order) (st1 : Ledger)
    (hp : place_order cfg markets st pubkey market side order_type size_sats leverage
        price_usd nid mark = ((some o, none), st1)) :
    ∃ mkt rp,
      markets.lookup market = some mkt ∧
      (side = "long" ∨ side = "short") ∧
      (order_type = "limit" ∨ order_type = "market") ∧
      ¬ size_sats ≤ 0 ∧
      ¬ (leverage < 1 ∨ mkt.max_leverage < leverage) ∧
      ¬ (order_type = "limit" ∧ limitPriceInvalid price_usd = true) ∧
      pyOrOpt2 price_usd mark = some rp ∧ ¬ rp = 0 ∧
      ¬ get_collateral_msats st pubkey <
          required_collateral_msats cfg size_sats leverage rp (some mkt.taker_fee_pct) ∧
      get_collateral_msats st1 pubkey =
        get_collateral_msats st pubkey -
          required_collateral_msats cfg size_sats leverage rp (some mkt.taker_fee_pct) ∧
      (st1.accounts.lookup pubkey).isSome ∧
      st1.orders.length = st.orders.length + 1 ∧
      o.nostr_event_id = nid := by
  simp only [place_order] at hp
  split at hp
  · simp at hp
  rename_i mkt hlm
  split at hp
  · simp at hp
  rename_i hside
  split at hp
  · simp at hp
  rename_i htype
  split at hp
  · simp at hp
  rename_i hsz
  split at hp
  · simp at hp
  rename_i hlev
  split at hp
  · simp at hp
  rename_i hlimp
  split at hp
  · simp at hp
  rename_i rp hrpe
  split at hp
  · simp at hp
  rename_i hrp0
  split at hp
  · simp at hp
  rename_i hcol
  split at hp
  · simp at hp
  rename_i st0 hdeb
  simp only [Prod.mk.injEq, Option.some.injEq, and_true] at hp
  obtain ⟨ho, hst1⟩ := hp
  obtain ⟨hd1, hd2, hd3, hd4, hd5, hd6, hd7, hd8, hd9⟩ :=
    debit_collateral_spec st pubkey _ st0 hdeb
  refine ⟨mkt, rp, hlm, not_not.mp hside, not_not.mp htype, hsz, hlev, hlimp, hrpe,
    hrp0, hcol, ?_, ?_, ?_, ?_⟩
  · rw [← hst1]
    unfold get_collateral_msats
    rw [match_order_accounts]
    exact hd1
  · rw [← hst1]
    rw [show ((match_order cfg markets
        (create_order st0 pubkey market side order_type size_sats leverage price_usd
          nid).2
        (create_order st0 pubkey market side order_type size_sats leverage price_usd
          nid).1 rp).2.2.accounts) = st0.accounts from match_order_accounts _ _ _ _ _]
    exact hd9
  · rw [← hst1, match_order_orders_length]
    show (st0.orders ++ _).length = st.orders.length + 1
    rw [List.length_append, hd3]
    rfl
  · rw [← ho]
    rfl

/-- C1 fails as stated: submitting the same signed order event to
`POST /api/futures/order` a second time is not rejected — the handler has
no duplicate-event check, so the second call answers 201 again, a second
order row with the same `nostr_event_id` exists, and collateral is
debited twice. -/
theorem claim_C1_counterexample :
    (futures_place_order specConfig specMarkets c1Event true (some 50000)
        (futures_place_order specConfig specMarkets c1Event true (some 50000)
          c1App).2).1.2.1 = none ∧
    (futures_place_order specConfig specMarkets c1Event true (some 50000)
        (futures_place_order specConfig specMarkets c1Event true (some 50000)
          c1App).2).1.2.2 = 201 ∧
    (futures_place_order specConfig specMarkets c1Event true (some 50000)
        (futures_place_order specConfig specMarkets c1Event true (some 50000)
          c1App).2).2.ledger.orders.length = 2 ∧
    (∀ x ∈ (futures_place_order specConfig specMarkets c1Event true (some 50000)
        (futures_place_order specConfig specMarkets c1Event true (some 50000)
          c1App).2).2.ledger.orders, x.nostr_event_id = some "evt1") ∧
    get_collateral_msats (futures_place_order specConfig specMarkets c1Event true
        (some 50000)
        (futures_place_order specConfig specMarkets c1Event true (some 50000)
          c1App).2).2.ledger "alice" = 1000000000 - 2 * 20050000 := by
  decide

/-- C1 (amended): `POST /api/futures/order` performs no replay check.
After a first accepted submission of a signed order event, submitting the
very same event again (same oracle price) is never rejected as a
duplicate: either the collateral check passes again — the endpoint
answers 201, appends one more order row carrying the same
`nostr_event_id`, and debits the account by the same amount as the first
call — or it fails only with the insufficient-collateral error, leaving
the state unchanged. -/
theorem claim_C1 (cfg : Config) (markets : List (String × Market)) (ev : OrderEvent)
    (mark : Option ℚ) (app : AppState) (o1 : Order) (app1 : AppState)
    (h1 : futures_place_order cfg markets ev true mark app = ((some o1, none, 201), app1)) :
    (∃ o2 app2,
        futures_place_order cfg markets ev true mark app1 = ((some o2, none, 201), app2) ∧
        app2.ledger.orders.length = app1.ledger.orders.length + 1 ∧
        o2.nostr_event_id = some ev.id ∧
        get_collateral_msats app1.ledger ev.pubkey -
            get_collateral_msats app2.ledger ev.pubkey =
          get_collateral_msats app.ledger ev.pubkey -
            get_collateral_msats app1.ledger ev.pubkey) ∨
    futures_place_order cfg markets ev true mark app1 =
      ((none, some "Insufficient collateral", 400), app1) := by
  simp only [futures_place_order] at h1
  rw [if_neg (by simp : ¬¬True)] at h1
  split at h1
  · simp at h1
  rename_i hk
  split at h1
  · simp at h1
  rename_i err1 heq1
  simp only [Prod.mk.injEq, and_true, true_and] at h1
  obtain ⟨hpo1, happ1⟩ := h1
  have hp1 : place_order cfg markets app.ledger ev.pubkey ev.market ev.side
      ev.order_type ev.size_sats ev.leverage ev.price_usd (some ev.id) mark =
      ((some o1, none),
        (place_order cfg markets app.ledger ev.pubkey ev.market ev.side ev.order_type
          ev.size_sats ev.leverage ev.price_usd (some ev.id) mark).2) := by
    have h12 : (place_order cfg markets app.ledger ev.pubkey ev.market ev.side
        ev.order_type ev.size_sats ev.leverage ev.price_usd (some ev.id) mark).1 =
        (some o1, none) := Prod.ext hpo1 heq1
    exact Prod.ext h12 rfl
  obtain ⟨mkt, rp, hlm, hside, htype, hsz, hlev, hlimp, hrpe, hrp0, hcol1, hdrop1,
    hisSome, hlen1, hnid1⟩ :=
    place_order_success_inv cfg markets app.ledger ev.pubkey ev.market ev.side
      ev.order_type ev.size_sats ev.leverage ev.price_usd (some ev.id) mark o1 _ hp1
  have hled1 : app1.ledger =
      (place_order cfg markets app.ledger ev.pubkey ev.market ev.side ev.order_type
        ev.size_sats ev.leverage ev.price_usd (some ev.id) mark).2 := by
    rw [← happ1]
  rw [← hled1] at hdrop1 hisSome hlen1
  by_cases hc2 : get_collateral_msats app1.ledger ev.pubkey <
      required_collateral_msats cfg ev.size_sats ev.leverage rp (some mkt.taker_fee_pct)
  · right
    have hplace2 : place_order cfg markets app1.ledger ev.pubkey ev.market ev.side
        ev.order_type ev.size_sats ev.leverage ev.price_usd (some ev.id) mark =
        ((none, some "Insufficient collateral"), app1.ledger) := by
      unfold place_order
      rw [hlm]
      dsimp only
      rw [if_neg (not_not_intro hside), if_neg (not_not_intro htype), if_neg hsz,
        if_neg hlev, if_neg hlimp, hrpe]
      dsimp only
      rw [if_neg hrp0, if_pos hc2]
    unfold futures_place_order
    rw [if_neg (not_not_intro rfl), if_neg hk]
    dsimp only
    rw [hplace2]
  · left
    obtain ⟨bal2, hbal2⟩ := Option.isSome_iff_exists.mp hisSome
    have hgc2 : get_collateral_msats app1.ledger ev.pubkey = bal2 := by
      unfold get_collateral_msats
      rw [hbal2]
      rfl
    have hnlt : ¬ bal2 < required_collateral_msats cfg ev.size_sats ev.leverage rp
        (some mkt.taker_fee_pct) := by omega
    have hdeb2 : debit_collateral app1.ledger ev.pubkey
        (required_collateral_msats cfg ev.size_sats ev.leverage rp
          (some mkt.taker_fee_pct)) =
        some { app1.ledger with
          accounts := app1.ledger.accounts.map (fun e =>
            if e.1 = ev.pubkey then
              (e.1, e.2 - required_collateral_msats cfg ev.size_sats ev.leverage rp
                (some mkt.taker_fee_pct))
            else e) } := by
      unfold debit_collateral
      rw [hbal2]
      dsimp only
      rw [if_neg hnlt]
    set ST : Ledger := { app1.ledger with
      accounts := app1.ledger.accounts.map (fun e =>
        if e.1 = ev.pubkey then
          (e.1, e.2 - required_collateral_msats cfg ev.size_sats ev.leverage rp
            (some mkt.taker_fee_pct))
        else e) } with hST
    have hplace2 : place_order cfg markets app1.ledger ev.pubkey ev.market ev.side
        ev.order_type ev.size_sats ev.leverage ev.price_usd (some ev.id) mark =
        ((some { (create_order ST ev.pubkey ev.market ev.side ev.order_type
                ev.size_sats ev.leverage ev.price_usd (some ev.id)).1 with
              filled_size_sats := (match_order cfg markets
                (create_order ST ev.pubkey ev.market ev.side ev.order_type
                  ev.size_sats ev.leverage ev.price_usd (some ev.id)).2
                (create_order ST ev.pubkey ev.market ev.side ev.order_type
                  ev.size_sats ev.leverage ev.price_usd (some ev.id)).1 rp).2.1 },
          none),
          (match_order cfg markets
            (create_order ST ev.pubkey ev.market ev.side ev.order_type ev.size_sats
              ev.leverage ev.price_usd (some ev.id)).2
            (create_order ST ev.pubkey ev.market ev.side ev.order_type ev.size_sats
              ev.leverage ev.price_usd (some ev.id)).1 rp).2.2) := by
      unfold place_order
      rw [hlm]
      dsimp only
      rw [if_neg (not_not_intro hside), if_neg (not_not_intro htype), if_neg hsz,
        if_neg hlev, if_neg hlimp, hrpe]
      dsimp only
      rw [if_neg hrp0, if_neg hc2, hdeb2]
    have hgST : get_collateral_msats ST ev.pubkey =
        bal2 - required_collateral_msats cfg ev.size_sats ev.leverage rp
          (some mkt.taker_fee_pct) := by
      unfold get_collateral_msats
      rw [hST]
      show ((app1.ledger.accounts.map _).lookup ev.pubkey).getD 0 = _
      rw [lookup_map_adjust app1.ledger.accounts ev.pubkey
        (fun x => x - required_collateral_msats cfg ev.size_sats ev.leverage rp
          (some mkt.taker_fee_pct)), hbal2]
      rfl
    refine ⟨{ (create_order ST ev.pubkey ev.market ev.side ev.order_type ev.size_sats
          ev.leverage ev.price_usd (some ev.id)).1 with
        filled_size_sats := (match_order cfg markets
          (create_order ST ev.pubkey ev.market ev.side ev.order_type ev.size_sats
            ev.leverage ev.price_usd (some ev.id)).2
          (create_order ST ev.pubkey ev.market ev.side ev.order_type ev.size_sats
            ev.leverage ev.price_usd (some ev.id)).1 rp).2.1 },
      { ledger := (match_order cfg markets
          (create_order ST ev.pubkey ev.market ev.side ev.order_type ev.size_sats
            ev.leverage ev.price_usd (some ev.id)).2
          (create_order ST ev.pubkey ev.market ev.side ev.order_type ev.size_sats
            ev.leverage ev.price_usd (some ev.id)).1 rp).2.2,
        processed_transfer_events := app1.processed_transfer_events },
      ?_, ?_, ?_, ?_⟩
    · unfold futures_place_order
      rw [if_neg (not_not_intro rfl), if_neg hk]
      dsimp only
      rw [hplace2]
    · dsimp only
      rw [match_order_orders_length]
      unfold create_order
      dsimp only
      rw [List.length_append]
      rfl
    · rfl
    · have hgcS2 : get_collateral_msats (match_order cfg markets
          (create_order ST ev.pubkey ev.market ev.side ev.order_type ev.size_sats
            ev.leverage ev.price_usd (some ev.id)).2
          (create_order ST ev.pubkey ev.market ev.side ev.order_type ev.size_sats
            ev.leverage ev.price_usd (some ev.id)).1 rp).2.2 ev.pubkey =
          get_collateral_msats ST ev.pubkey := by
        unfold get_collateral_msats
        rw [match_order_accounts]
        rfl
      have hd1' : bal2 = get_collateral_msats app.ledger ev.pubkey -
          required_collateral_msats cfg ev.size_sats ev.leverage rp
            (some mkt.taker_fee_pct) := by
        rw [← hgc2]
        exact hdrop1
      dsimp only
      rw [hgcS2, hgST, hgc2]
      omega

/-- Witness for the amended C1 at the concrete replay scenario: the first call
on the funded ledger succeeds, so the theorem settles the second call. -/
theorem claim_C1_witness :
    (∃ o2 app2,
        futures_place_order specConfig specMarkets c1Event true (some 50000) c1App1 =
          ((some o2, none, 201), app2) ∧
        app2.ledger.orders.length = c1App1.ledger.orders.length + 1 ∧
        o2.nostr_event_id = some c1Event.id ∧
        get_collateral_msats c1App1.ledger c1Event.pubkey -
            get_collateral_msats app2.ledger c1Event.pubkey =
          get_collateral_msats c1App.ledger c1Event.pubkey -
            get_collateral_msats c1App1.ledger c1Event.pubkey) ∨
    futures_place_order specConfig specMarkets c1Event true (some 50000) c1App1 =
      ((none, some "Insufficient collateral", 400), c1App1) :=
  claim_C1 specConfig specMarkets c1Event (some 50000) c1App c1Order1 c1App1 (by decide)

end PerpDex
